import Mathlib

/-!
Verification of the libnsgif GIF decoder sources.

The repository holds two generations of the decoder:
 * the legacy decoder in src/src/libnsgif.c (functions gif_initialise_frame,
   gif_interlaced_line, gif_internal_decode_frame, ...), and
 * the current decoder (functions nsgif__process_frame, nsgif__deinterlace,
   nsgif__update_bitmap, nsgif__decode, ...) together with its header
   declaring struct nsgif and enum nsgif_result.

Bytes of the source window are modelled as a `List Nat` of values < 256; the
window length plays the role of the C buffer_size.  C unsigned arithmetic on
in-range values coincides with Nat arithmetic; where C int subtraction could
go negative the embedding mirrors the guards of the source so that Nat
truncated subtraction agrees on the reachable inputs (noted at each spot).

The LZW decoder (lzw.c / lzw.h) is not part of the sources; per the spec it
is modelled abstractly where needed (marked `Modelled from the spec:`).
-/

namespace LibNsGif

/-- nsgif_result from the current header (NSGIF_INSUFFICIENT_FRAME_DATA is an
alias of NSGIF_INSUFFICIENT_DATA there, so it is not a separate constructor). -/
inductive nsgif_result where
  | NSGIF_WORKING
  | NSGIF_OK
  | NSGIF_INSUFFICIENT_DATA
  | NSGIF_FRAME_DATA_ERROR
  | NSGIF_DATA_ERROR
  | NSGIF_INSUFFICIENT_MEMORY
  | NSGIF_FRAME_NO_DISPLAY
  | NSGIF_END_OF_FRAME
deriving DecidableEq, Repr

/-- gif_result of the legacy decoder: there GIF_INSUFFICIENT_FRAME_DATA is a
distinct value from GIF_INSUFFICIENT_DATA. -/
inductive gif_result where
  | GIF_WORKING
  | GIF_OK
  | GIF_INSUFFICIENT_FRAME_DATA
  | GIF_INSUFFICIENT_DATA
  | GIF_FRAME_DATA_ERROR
  | GIF_DATA_ERROR
  | GIF_INSUFFICIENT_MEMORY
  | GIF_FRAME_NO_DISPLAY
  | GIF_END_OF_FRAME
deriving DecidableEq, Repr

/-- lzw_result from lzw.h (declared by the callers in the sources). -/
inductive lzw_result where
  | LZW_OK
  | LZW_OK_EOD
  | LZW_NO_MEM
  | LZW_NO_DATA
  | LZW_EOI_CODE
  | LZW_BAD_ICODE
  | LZW_BAD_CODE
  | LZW_BAD_PARAM
  | LZW_NO_COLOUR
deriving DecidableEq, Repr

/-- Modelled from the spec: lzw.h is not under the sources; the spec gives the
maximum code width as 12 bits, and LZW_CODE_MAX is the bound checked against
the minimum code size during frame data parsing. -/
def LZW_CODE_MAX : Nat := 12

/-- NSGIF_INVALID_FRAME (-1): sentinel for `no frame currently decoded`. -/
def NSGIF_INVALID_FRAME : Int := -1

/-- NSGIF_NO_TRANSPARENCY (0xFFFFFFFF). -/
def NSGIF_NO_TRANSPARENCY : Nat := 0xFFFFFFFF

/-!
## Interlacing (claim C5)

gif_interlaced_line is the legacy closed-form row computation; the C `<< 3`,
`>> 3` etc. are written as multiplication/division.  The C operates on `int`;
on the decoder call range (0 <= y < height) every intermediate subtraction is
nonnegative whenever its result is used, and each comparison whose right side
could be negative has a nonnegative left side, so Nat truncated subtraction
gives the same results.
-/

def gif_interlaced_line (height y : Nat) : Nat :=
  if y * 8 < height then y * 8
  else if (y - (height + 7) / 8) * 8 < height - 4 then
    (y - (height + 7) / 8) * 8 + 4
  else if (y - (height + 7) / 8 - (height + 3) / 8) * 4 < height - 2 then
    (y - (height + 7) / 8 - (height + 3) / 8) * 4 + 2
  else
    (y - (height + 7) / 8 - (height + 3) / 8 - (height + 1) / 4) * 2 + 1

/-- One call of nsgif__deinterlace: given frame height and the current row and
step, return the next row and updated step, or none at the end of the frame.
`step & 0xf` is `step % 16`; the switch fall-through is mirrored by the
disjunctions (a 24 falls into the 8 case, an 8 into the 4 case, ...). -/
def nsgif__deinterlace (height y step : Nat) : Option (Nat × Nat) :=
  let y1 := y + step % 16
  if y1 < height then some (y1, step)
  else if step = 24 ∧ 4 < height then some (4, 8)
  else if (step = 24 ∨ step = 8) ∧ 2 < height then some (2, 4)
  else if (step = 24 ∨ step = 8 ∨ step = 4) ∧ 1 < height then some (1, 2)
  else none

/-- Iterate nsgif__deinterlace, collecting the rows it yields. -/
def nsgif__deinterlace_go : Nat → Nat → Nat → Nat → List Nat
  | 0, _, _, _ => []
  | fuel + 1, height, y, step =>
    match nsgif__deinterlace height y step with
    | none => []
    | some (y2, step2) => y2 :: nsgif__deinterlace_go fuel height y2 step2

/-- Row sequence of the interlaced decode loop: the do-while loop of
nsgif__decode_complex processes row 0 first and then each row produced by
nsgif__deinterlace (step initialised to 24).  The C loop needs no fuel; the
bound 2 * height + 4 is a modelling artefact, provably larger than the number
of loop iterations. -/
def nsgif__deinterlace_rows (height : Nat) : List Nat :=
  0 :: nsgif__deinterlace_go (2 * height + 4) height 0 24

/-- The four GIF interlace passes, as the spec words them: rows 0,8,16,...,
then 4,12,20,..., then 2,6,10,..., then 1,3,5,..., each restricted to rows
below the frame height. -/
def interlacePassRows (height : Nat) : List Nat :=
  ((List.range height).filter fun r => r % 8 = 0) ++
  ((List.range height).filter fun r => r % 8 = 4) ++
  ((List.range height).filter fun r => r % 4 = 2) ++
  ((List.range height).filter fun r => r % 2 = 1)

/-!
## Logical screen descriptor and the size quirk (claim C7)
-/

/-- Little-endian 16-bit read `data[i] | (data[i+1] << 8)`. -/
def peek16le (buf : List Nat) (i : Nat) : Nat :=
  buf.getD i 0 + 256 * buf.getD (i + 1) 0

/-- Fields read by nsgif__parse_logical_screen_descriptor.  The field the
source calls aspect_ratio is named aspect_rat here (tooling restriction on
names). -/
structure LsdInfo where
  width : Nat
  height : Nat
  global_colours : Bool
  colour_table_size : Nat
  bg_index : Nat
  aspect_rat : Nat
  loop_count : Nat
deriving DecidableEq, Repr

/-- nsgif__parse_logical_screen_descriptor: parse the 7-byte LSD at pos;
none models the NSGIF_INSUFFICIENT_DATA return (in which case *pos and the
gif fields are untouched). -/
def nsgif__parse_logical_screen_descriptor (buf : List Nat) (pos : Nat) :
    Option (LsdInfo × Nat) :=
  if buf.length - pos < 7 then none
  else
    some ({ width := peek16le buf pos
          , height := peek16le buf (pos + 2)
          , global_colours := buf.getD (pos + 4) 0 &&& 0x80 ≠ 0
          , colour_table_size := 2 <<< (buf.getD (pos + 4) 0 &&& 0x07)
          , bg_index := buf.getD (pos + 5) 0
          , aspect_rat := buf.getD (pos + 6) 0
          , loop_count := 1 }, pos + 7)

/-- The size-quirk clamp applied by nsgif_initialise (and identically by the
legacy gif_initialise) immediately after parsing the LSD: the if-cascade from
the source, resetting both dimensions to 1. -/
def nsgif__lsd_size_quirk (w h : Nat) : Nat × Nat :=
  if (w = 640 ∧ h = 480) ∨ (w = 640 ∧ h = 512) ∨ (w = 800 ∧ h = 600) ∨
      (w = 1024 ∧ h = 768) ∨ (w = 1280 ∧ h = 1024) ∨ (w = 1600 ∧ h = 1200) ∨
      (w = 0 ∨ h = 0) ∨ (w > 2048 ∨ h > 2048) then
    (1, 1)
  else (w, h)

/-- The quirk dimension list as the spec enumerates it. -/
def quirkDims : List (Nat × Nat) :=
  [(640, 480), (640, 512), (800, 600), (1024, 768), (1280, 1024), (1600, 1200)]

/-!
## Graphic control extension (claim C8)
-/

/-- Frame record of the current decoder (struct nsgif_frame).  The redraw
rect fields redraw.x/y/w/h are flattened to redraw_x etc.; the opaque field
is named opaq and frame_count_partial-related naming follows the same
tooling restriction. -/
structure nsgif_frame where
  display : Bool
  frame_delay : Nat
  frame_pointer : Nat
  decoded : Bool
  opaq : Bool
  redraw_required : Bool
  disposal_method : Nat
  transparency : Bool
  transparency_index : Nat
  flags : Nat
  redraw_x : Nat
  redraw_y : Nat
  redraw_w : Nat
  redraw_h : Nat
deriving DecidableEq, Repr

/-- An all-zero frame record (used as the List.getD default). -/
def frame_zero : nsgif_frame :=
  { display := false, frame_delay := 0, frame_pointer := 0, decoded := false
  , opaq := false, redraw_required := false, disposal_method := 0
  , transparency := false, transparency_index := 0, flags := 0
  , redraw_x := 0, redraw_y := 0, redraw_w := 0, redraw_h := 0 }

instance : Inhabited nsgif_frame := ⟨frame_zero⟩

/-- nsgif__parse_extension_graphic_control: `pos` is the position of the
Graphic Control Label byte, `len` the bytes remaining from there.
GIF_MASK_TRANSPARENCY is 0x01, GIF_MASK_DISPOSAL is 0x1c (bits 2-4);
disposal 4 (NSGIF_DISPOSAL_RESTORE_QUIRK) is normalised to 3
(NSGIF_DISPOSAL_RESTORE_PREV); redraw_required is set for disposal 2
(RESTORE_BG) or 3 (RESTORE_PREV). -/
def nsgif__parse_extension_graphic_control (frame : nsgif_frame)
    (buf : List Nat) (pos len : Nat) : nsgif_result × nsgif_frame :=
  if len < 6 then (.NSGIF_INSUFFICIENT_DATA, frame)
  else
    let f1 := { frame with frame_delay := peek16le buf (pos + 3) }
    let f2 :=
      if buf.getD (pos + 2) 0 &&& 0x01 ≠ 0 then
        { f1 with transparency := true, transparency_index := buf.getD (pos + 5) 0 }
      else f1
    let d0 := (buf.getD (pos + 2) 0 &&& 0x1c) >>> 2
    let d := if d0 = 4 then 3 else d0
    (.NSGIF_OK,
      { f2 with disposal_method := d, redraw_required := d == 2 || d == 3 })

/-!
## Decoder state (struct nsgif)

buffer_size is `nsgif_data.length`.  The bitmap capability table and the
client behaviour behind it are modelled by the vt_* fields: vt_create_ok is
whether the client's create callback returns a bitmap, create_fill the
(unspecified) initial pixel value of a freshly created bitmap, vt_set_opaq
and vt_modified whether those optional slots are provided, vt_test_opaq the
client's answer when that optional slot is provided.  frame_count_partial of
the source is named frame_count_part (tooling restriction). -/
structure nsgif_animation where
  nsgif_data : List Nat
  width : Nat
  height : Nat
  frame_count : Nat
  frame_count_part : Nat
  frames : List nsgif_frame
  decoded_frame : Int
  frame_image : Option (List Nat)
  loop_count : Nat
  buffer_position : Nat
  frame_holders : Nat
  bg_index : Nat
  bg_colour : Nat
  colour_table_size : Nat
  global_colours : Bool
  global_colour_table : List Nat
  local_colour_table : List Nat
  colour_table : List Nat
  prev_frame : Option (List Nat)
  prev_index : Int
  prev_width : Nat
  prev_height : Nat
  vt_create_ok : Bool
  vt_set_opaq : Bool
  vt_test_opaq : Option Bool
  vt_modified : Bool
  create_fill : Nat
deriving DecidableEq, Repr

/-!
## Frame extension parsing (survey and decode passes share it)

The C loops are while-loops.  They are embedded with a fuel argument for
structural recursion; each wrapper passes a fuel provably at least the
number of loop iterations (the cursor advances at least one byte per
iteration and the loops stop at the end of the window), so the fuel-0
branches are unreachable from the wrappers.
-/

/-- The sub-block drain loop at the end of each extension group: repeatedly
skip length-prefixed blocks until a zero block or until the window ends.
none models the NSGIF_INSUFFICIENT_DATA return from inside the loop; some q
is the position after the final `nsgif_data++` (which the source performs
even when the loop was never entered because pos is at or past the end). -/
def skip_sub_blocks : Nat → List Nat → Nat → Nat → Option Nat
  | 0, _, _, _ => none
  | fuel + 1, buf, p, stop =>
    if p < stop ∧ buf.getD p 0 ≠ 0 then
      if stop ≤ p + buf.getD p 0 + 1 then none
      else skip_sub_blocks fuel buf (p + buf.getD p 0 + 1) stop
    else some (p + 1)

/-- 11 identifier bytes of NETSCAPE2.0, compared by strncmp in the source. -/
def netscape20 : List Nat :=
  [0x4E, 0x45, 0x54, 0x53, 0x43, 0x41, 0x50, 0x45, 0x32, 0x2E, 0x30]

/-- nsgif__parse_extension_application: pos is the position of the
Application Extension Label byte, len the bytes remaining from there.  On a
NETSCAPE2.0 looping block, loop_count is set. -/
def nsgif__parse_extension_application (gif : nsgif_animation) (pos len : Nat) :
    nsgif_result × nsgif_animation :=
  if len < 17 then (.NSGIF_INSUFFICIENT_DATA, gif)
  else if gif.nsgif_data.getD (pos + 1) 0 = 0x0b ∧
      (((List.range 11).all fun i =>
        gif.nsgif_data.getD (pos + 2 + i) 0 == netscape20.getD i 0) = true) ∧
      gif.nsgif_data.getD (pos + 13) 0 = 0x03 ∧
      gif.nsgif_data.getD (pos + 14) 0 = 0x01 then
    (.NSGIF_OK, { gif with loop_count := peek16le gif.nsgif_data (pos + 15) })
  else (.NSGIF_OK, gif)

/-- The extension-label switch of nsgif__parse_frame_extensions: pos1 is the
position of the label byte.  Graphic-control and application extensions are
parsed only when decode is set; anything else falls through with NSGIF_OK. -/
def nsgif__frame_extension_switch (gif : nsgif_animation) (frame : nsgif_frame)
    (decode : Bool) (stop pos1 : Nat) :
    nsgif_result × nsgif_animation × nsgif_frame :=
  if gif.nsgif_data.getD pos1 0 = 0xf9 ∧ decode = true then
    ((nsgif__parse_extension_graphic_control frame gif.nsgif_data pos1
        (stop - pos1)).1,
      gif,
      (nsgif__parse_extension_graphic_control frame gif.nsgif_data pos1
        (stop - pos1)).2)
  else if gif.nsgif_data.getD pos1 0 = 0xff ∧ decode = true then
    ((nsgif__parse_extension_application gif pos1 (stop - pos1)).1,
      (nsgif__parse_extension_application gif pos1 (stop - pos1)).2,
      frame)
  else (.NSGIF_OK, gif, frame)

/-- Loop body of nsgif__parse_frame_extensions.  `stop` is the window
length.  On the error returns the source leaves the caller's position
out-parameter untouched; the wrapper below restores it, so the position
component of an error result here is irrelevant.  The comment extension
(label 0xfe) steps one byte past the label; anything else steps two bytes
plus the extension size.  The sub-block drain's fuel stop + 1 exceeds its
iteration count. -/
def nsgif__parse_frame_extensions_go :
    Nat → nsgif_animation → nsgif_frame → Bool → Nat → Nat →
      nsgif_result × nsgif_animation × nsgif_frame × Nat
  | 0, gif, frame, _, _, pos => (.NSGIF_OK, gif, frame, pos)
  | fuel + 1, gif, frame, decode, stop, pos =>
    if pos < stop ∧ gif.nsgif_data.getD pos 0 = 0x21 then
      if stop ≤ pos + 1 then (.NSGIF_INSUFFICIENT_DATA, gif, frame, pos)
      else
        if (nsgif__frame_extension_switch gif frame decode stop (pos + 1)).1 ≠
            .NSGIF_OK then
          ((nsgif__frame_extension_switch gif frame decode stop (pos + 1)).1,
            (nsgif__frame_extension_switch gif frame decode stop (pos + 1)).2.1,
            (nsgif__frame_extension_switch gif frame decode stop (pos + 1)).2.2,
            pos)
        else if gif.nsgif_data.getD (pos + 1) 0 ≠ 0xfe ∧ stop - (pos + 1) < 2 then
          (.NSGIF_INSUFFICIENT_DATA,
            (nsgif__frame_extension_switch gif frame decode stop (pos + 1)).2.1,
            (nsgif__frame_extension_switch gif frame decode stop (pos + 1)).2.2,
            pos)
        else
          match skip_sub_blocks (stop + 1) gif.nsgif_data
              (if gif.nsgif_data.getD (pos + 1) 0 = 0xfe then pos + 2
                else pos + 3 + gif.nsgif_data.getD (pos + 2) 0) stop with
          | none =>
            (.NSGIF_INSUFFICIENT_DATA,
              (nsgif__frame_extension_switch gif frame decode stop (pos + 1)).2.1,
              (nsgif__frame_extension_switch gif frame decode stop (pos + 1)).2.2,
              pos)
          | some pos3 =>
            nsgif__parse_frame_extensions_go fuel
              (nsgif__frame_extension_switch gif frame decode stop (pos + 1)).2.1
              (nsgif__frame_extension_switch gif frame decode stop (pos + 1)).2.2
              decode stop pos3
    else (.NSGIF_OK, gif, frame, pos)

/-- nsgif__parse_frame_extensions: on any error return the out-parameter
position keeps its pre-call value (the source only assigns *pos on the OK
path); gif and frame mutations made before the error persist (they go
through pointers in the source).  Each loop iteration advances the cursor,
so length + 1 fuel exceeds the iteration count. -/
def nsgif__parse_frame_extensions (gif : nsgif_animation) (frame : nsgif_frame)
    (decode : Bool) (pos : Nat) :
    nsgif_result × nsgif_animation × nsgif_frame × Nat :=
  if (nsgif__parse_frame_extensions_go (gif.nsgif_data.length + 1) gif frame
      decode gif.nsgif_data.length pos).1 = .NSGIF_OK then
    nsgif__parse_frame_extensions_go (gif.nsgif_data.length + 1) gif frame
      decode gif.nsgif_data.length pos
  else
    ((nsgif__parse_frame_extensions_go (gif.nsgif_data.length + 1) gif frame
        decode gif.nsgif_data.length pos).1,
      (nsgif__parse_frame_extensions_go (gif.nsgif_data.length + 1) gif frame
        decode gif.nsgif_data.length pos).2.1,
      (nsgif__parse_frame_extensions_go (gif.nsgif_data.length + 1) gif frame
        decode gif.nsgif_data.length pos).2.2.1,
      pos)

/-- nsgif__parse_image_descriptor: 10-byte image descriptor at pos.  With
decode set it validates the 0x2C separator, stores the frame rectangle and
flags, and (only while frame_count is 0) grows the canvas to cover the
frame.  Errors leave the position untouched. -/
def nsgif__parse_image_descriptor (gif : nsgif_animation) (frame : nsgif_frame)
    (decode : Bool) (pos : Nat) :
    nsgif_result × nsgif_animation × nsgif_frame × Nat :=
  if gif.nsgif_data.length - pos < 10 then
    (.NSGIF_INSUFFICIENT_DATA, gif, frame, pos)
  else if decode then
    if gif.nsgif_data.getD pos 0 ≠ 0x2C then
      (.NSGIF_FRAME_DATA_ERROR, gif, frame, pos)
    else
      let x := peek16le gif.nsgif_data (pos + 1)
      let y := peek16le gif.nsgif_data (pos + 3)
      let w := peek16le gif.nsgif_data (pos + 5)
      let h := peek16le gif.nsgif_data (pos + 7)
      let frame2 := { frame with
        flags := gif.nsgif_data.getD (pos + 9) 0,
        redraw_x := x, redraw_y := y, redraw_w := w, redraw_h := h }
      let gif2 :=
        if gif.frame_count = 0 then
          { gif with
              width := if x + w > gif.width then x + w else gif.width,
              height := if y + h > gif.height then y + h else gif.height }
        else gif
      (.NSGIF_OK, gif2, frame2, pos + 10)
  else (.NSGIF_OK, gif, frame, pos + 10)

/-- Packed RGBA colour entries built by nsgif__colour_table_extract: bytes
r,g,b,0xff packed little-endian (byte 0 = red, byte 3 = alpha), as on the
little-endian targets the byte-wise writes of the source produce. -/
def nsgif__colour_table_entries (buf : List Nat) (pos n : Nat) : List Nat :=
  (List.range n).map fun i =>
    buf.getD (pos + 3 * i) 0 + 256 * buf.getD (pos + 3 * i + 1) 0 +
      65536 * buf.getD (pos + 3 * i + 2) 0 + 16777216 * 0xff

/-- nsgif__colour_table_extract: with decode set, overwrite the first
`entries` entries of the 256-entry table. -/
def nsgif__colour_table_extract (gif : nsgif_animation) (table : List Nat)
    (entries : Nat) (decode : Bool) (pos : Nat) : nsgif_result × List Nat × Nat :=
  if gif.nsgif_data.length - pos < entries * 3 then
    (.NSGIF_INSUFFICIENT_DATA, table, pos)
  else
    let table2 :=
      if decode then
        nsgif__colour_table_entries gif.nsgif_data pos entries ++ table.drop entries
      else table
    (.NSGIF_OK, table2, pos + entries * 3)

/-- nsgif__parse_colour_table: select the global table when the frame has no
local one, else extract (or skip) the local table and select it.  The
colour_table pointer of the source is modelled by copying the value of the
selected table into the colour_table field. -/
def nsgif__parse_colour_table (gif : nsgif_animation) (frame : nsgif_frame)
    (decode : Bool) (pos : Nat) : nsgif_result × nsgif_animation × Nat :=
  if frame.flags &&& 0x80 = 0 then
    (.NSGIF_OK, { gif with colour_table := gif.global_colour_table }, pos)
  else
    match nsgif__colour_table_extract gif gif.local_colour_table
        (2 <<< (frame.flags &&& 0x07)) decode pos with
    | (.NSGIF_OK, t2, pos2) =>
      (.NSGIF_OK, { gif with local_colour_table := t2, colour_table := t2 }, pos2)
    | (r, t2, _) => (r, { gif with local_colour_table := t2 }, pos)

/-!
## Image data survey walk (claims C1, C9)
-/

/-- Outcome of the survey's sub-block walk over a frame's image data:
insufficient - the walk ran out mid-chain, needing the next length byte
(including a sub-block whose length runs exactly to end-of-buffer);
overrun - a sub-block's length ran strictly past the end of the window;
complete p - the chain was fully walked, p being the position just past the
zero-length terminator. -/
inductive SubBlockWalk where
  | insufficient
  | overrun
  | complete (p : Nat)
deriving DecidableEq, Repr

/-- The survey branch's sub-block loop in nsgif__parse_image_data: p is the
position of the next block length byte, len the bytes remaining from p.
Since every iteration consumes at least one byte, fuel = len keeps fuel at
least len throughout, so the fuel-0 branch coincides with the len < 1
return of the source. -/
def nsgif__image_data_walk : Nat → List Nat → Nat → Nat → SubBlockWalk
  | 0, _, _, _ => .insufficient
  | fuel + 1, buf, p, len =>
    if len < 1 then .insufficient
    else if len < buf.getD p 0 + 1 then .overrun
    else if buf.getD p 0 + 1 = 1 then .complete (p + 1)
    else nsgif__image_data_walk fuel buf (p + (buf.getD p 0 + 1))
      (len - (buf.getD p 0 + 1))

/-- Survey branch (decode = false) of nsgif__parse_image_data: records the
partial frame, handles trailers and short windows, checks the minimum code
size against LZW_CODE_MAX, then walks the sub-block chain.  Only on a fully
walked chain does it count the frame in frame_count and mark it displayable
(directly in gif->frames, hence on the frames list here). -/
def nsgif__parse_image_data_scan (gif : nsgif_animation) (frame_idx pos : Nat) :
    nsgif_result × nsgif_animation × Nat :=
  let buf := gif.nsgif_data
  let len := buf.length - pos
  let gif1 := { gif with frame_count_part := frame_idx + 1 }
  if len = 0 then (.NSGIF_INSUFFICIENT_DATA, gif1, pos)
  else if len = 1 then
    if buf.getD pos 0 = 0x3B then (.NSGIF_OK, gif1, pos)
    else (.NSGIF_INSUFFICIENT_DATA, gif1, pos)
  else if len = 2 then
    if buf.getD (pos + 1) 0 = 0x3B then (.NSGIF_OK, gif1, pos)
    else if buf.getD pos 0 = 0x3B then (.NSGIF_OK, gif1, pos)
    else (.NSGIF_INSUFFICIENT_DATA, gif1, pos)
  else if buf.getD pos 0 = 0x3B then (.NSGIF_OK, gif1, pos)
  else if LZW_CODE_MAX ≤ buf.getD pos 0 then (.NSGIF_DATA_ERROR, gif1, pos)
  else
    match nsgif__image_data_walk (len - 1) buf (pos + 1) (len - 1) with
    | .insufficient => (.NSGIF_INSUFFICIENT_DATA, gif1, pos)
    | .overrun => (.NSGIF_OK, gif1, pos)
    | .complete p =>
      let gif2 := { gif1 with
        frame_count := frame_idx + 1,
        frames := gif1.frames.set frame_idx
            { (gif1.frames.getD frame_idx frame_zero) with display := true } }
      if buf.length - p < 1 then (.NSGIF_INSUFFICIENT_DATA, gif2, p)
      else if buf.getD p 0 = 0x3B then (.NSGIF_OK, gif2, p)
      else (.NSGIF_WORKING, gif2, p)

/-- A fresh frame record as nsgif__get_frame initialises it.  The fields the
source leaves uninitialised on a fresh record (flags, the redraw rectangle,
the opacity hint) are modelled as zero. -/
def nsgif__frame_fresh (buffer_position : Nat) : nsgif_frame :=
  { frame_zero with
      transparency := false,
      transparency_index := NSGIF_NO_TRANSPARENCY,
      frame_pointer := buffer_position,
      redraw_required := false,
      disposal_method := 0,
      frame_delay := 100,
      display := false,
      decoded := false }

/-- nsgif__get_frame: return the existing record, or grow the frame holders
to frame_idx + 1.  The C realloc preserves entries below the old count and
leaves any gap entries uninitialised; gap entries are modelled with the same
fresh record. -/
def nsgif__get_frame (gif : nsgif_animation) (frame_idx : Nat) :
    nsgif_animation × nsgif_frame :=
  if frame_idx < gif.frame_holders then
    (gif, gif.frames.getD frame_idx frame_zero)
  else
    ({ gif with
        frames := (gif.frames ++
          List.replicate (frame_idx + 1 - gif.frames.length)
            (nsgif__frame_fresh gif.buffer_position)).set frame_idx
              (nsgif__frame_fresh gif.buffer_position),
        frame_holders := frame_idx + 1 }, nsgif__frame_fresh gif.buffer_position)

/-- Survey pass of nsgif__process_frame (decode = false): start from
buffer_position, check the trailer and the frame-count cap, run the four
parse stages (extensions and the image descriptor with their decode flag
set, the colour table skipped), and at cleanup always store the reached
position back into buffer_position.  The frame pointer of the source aliases
gif->frames[frame_idx]; the model writes the updated record back before the
image-data stage (the only later stage that touches the record). -/
def nsgif__process_frame_scan (gif0 : nsgif_animation) (frame_idx : Nat) :
    nsgif_result × nsgif_animation :=
  let gif := (nsgif__get_frame gif0 frame_idx).1
  let frame := (nsgif__get_frame gif0 frame_idx).2
  let stop := gif.nsgif_data.length
  let pos := gif.buffer_position
  if pos < stop ∧ gif.nsgif_data.getD pos 0 = 0x3B then (.NSGIF_OK, gif)
  else if 4096 < frame_idx then (.NSGIF_FRAME_DATA_ERROR, gif)
  else
    let s1 := nsgif__parse_frame_extensions gif frame true pos
    if s1.1 = .NSGIF_OK then
      let s2 := nsgif__parse_image_descriptor s1.2.1 s1.2.2.1 true s1.2.2.2
      if s2.1 = .NSGIF_OK then
        let s3 := nsgif__parse_colour_table s2.2.1 s2.2.2.1 false s2.2.2.2
        if s3.1 = .NSGIF_OK then
          let s4 := nsgif__parse_image_data_scan
            { s3.2.1 with frames := (s3.2.1).frames.set frame_idx s2.2.2.1 }
            frame_idx s3.2.2
          (s4.1, { s4.2.1 with buffer_position := s4.2.2 })
        else
          (s3.1, { s3.2.1 with
            frames := (s3.2.1).frames.set frame_idx s2.2.2.1,
            buffer_position := s3.2.2 })
      else
        (s2.1, { s2.2.1 with
          frames := (s2.2.1).frames.set frame_idx s2.2.2.1,
          buffer_position := s2.2.2.2 })
    else
      (s1.1, { s1.2.1 with
        frames := (s1.2.1).frames.set frame_idx s1.2.2.1,
        buffer_position := s1.2.2.2 })

/-!
## Legacy survey (gif_initialise_frame, claims C1 and C4)
-/

/-- The sub-block skip loop of the legacy gif_initialise_frame, from the
point where the pointer has moved past the minimum code size byte.  State is
(buffer, gif_data index, gif_bytes).  none models the
GIF_INSUFFICIENT_FRAME_DATA return; some (buf, p, bytes) models leaving the
loop.  On an overrun with at least 2 bytes left the source PATCHES the
borrowed buffer: gif_data[0] = 0; gif_data[1] = GIF_TRAILER; sets gif_bytes
to 1 and advances past the patched zero block.  Each iteration consumes at
least one byte of gif_bytes, so fuel = bytes + 1 keeps the fuel-0 branch
unreachable. -/
def gif_initialise_frame_skip : Nat → List Nat → Nat → Nat →
    Option (List Nat × Nat × Nat)
  | 0, _, _, _ => none
  | fuel + 1, buf, p, bytes =>
    if bytes < 1 then none
    else if bytes < buf.getD p 0 + 1 then
      if 2 ≤ bytes then some ((buf.set p 0).set (p + 1) 0x3B, p + 1, 1)
      else none
    else if buf.getD p 0 + 1 = 1 then some (buf, p + 1, bytes - 1)
    else gif_initialise_frame_skip fuel buf (p + (buf.getD p 0 + 1))
      (bytes - (buf.getD p 0 + 1))

/-- The tail of the legacy gif_initialise_frame from the minimum code size
byte at index p: the LZW code size check, the skip loop, then marking the
frame displayable and classifying the position reached.  Result components:
status, the (possibly patched) buffer, the final index, and whether the
frame was counted and marked displayable. -/
def gif_initialise_frame_data (buf : List Nat) (p : Nat) :
    gif_result × List Nat × Nat × Bool :=
  if LZW_CODE_MAX ≤ buf.getD p 0 then (.GIF_DATA_ERROR, buf, p, false)
  else
    match gif_initialise_frame_skip (buf.length - p) buf (p + 1)
        (buf.length - p - 1) with
    | none => (.GIF_INSUFFICIENT_FRAME_DATA, buf, p, false)
    | some (buf2, p2, bytes2) =>
      if bytes2 < 1 then (.GIF_INSUFFICIENT_FRAME_DATA, buf2, p2, true)
      else if buf2.getD p2 0 = 0x3B then (.GIF_OK, buf2, p2, true)
      else (.GIF_WORKING, buf2, p2, true)

/-- An all-zero animation state, the base for concrete test states. -/
def anim_zero : nsgif_animation :=
  { nsgif_data := [], width := 0, height := 0, frame_count := 0,
    frame_count_part := 0, frames := [], decoded_frame := NSGIF_INVALID_FRAME,
    frame_image := none, loop_count := 0, buffer_position := 0,
    frame_holders := 0, bg_index := 0, bg_colour := 0, colour_table_size := 0,
    global_colours := false, global_colour_table := [],
    local_colour_table := [], colour_table := [], prev_frame := none,
    prev_index := NSGIF_INVALID_FRAME, prev_width := 0, prev_height := 0,
    vt_create_ok := true, vt_set_opaq := false, vt_test_opaq := none,
    vt_modified := false, create_fill := 0 }

/-!
## Survey behaviour on sub-block overrun (claim C1)
-/

/-- A 1x1 frame whose image data declares a 5-byte sub-block with only one
byte left in the buffer: image descriptor (10 bytes), minimum code size 2,
then block length 5 followed by a single byte. -/
def C1_gif : nsgif_animation :=
  { anim_zero with
      nsgif_data := [0x2C, 0, 0, 0, 0, 1, 0, 1, 0, 0, 2, 5, 170],
      frames := [frame_zero],
      frame_holders := 1 }

/-- The same 1x1 frame with its image data truncated exactly at the end of
a sub-block: minimum code size 2, a complete 1-byte sub-block, and the
buffer ending right where the next block length byte is needed. -/
def C1_trunc_gif : nsgif_animation :=
  { anim_zero with
      nsgif_data := [0x2C, 0, 0, 0, 0, 1, 0, 1, 0, 0, 2, 1, 0xAA],
      frames := [frame_zero],
      frame_holders := 1 }

/-- The retry state: exactly the state the survey of C1_trunc_gif left
behind (InsufficientData, buffer_position stored at the minimum code size
byte, index 10), with the embedder having appended the frame's missing
terminator, the trailer and further bytes to the borrowed window. -/
def C1_retry_gif : nsgif_animation :=
  { (nsgif__process_frame_scan C1_trunc_gif 0).2 with
      nsgif_data := C1_trunc_gif.nsgif_data ++
        [0, 0x3B, 0x2C, 0, 0, 0, 0, 1, 0, 1] }

/-!
## The 4096-frame cap (claim C9)
-/

/-- A state holding 4097 surveyed frames (indices 0 .. 4096) whose buffer
continues with one more complete 1x1 frame followed by a trailer. -/
def C9_gif : nsgif_animation :=
  { anim_zero with
      nsgif_data := [0x2C, 0, 0, 0, 0, 1, 0, 1, 0, 0, 2, 1, 0xAA, 0, 0x3B],
      frames := List.replicate 4097 frame_zero,
      frame_holders := 4097,
      frame_count := 4096,
      frame_count_part := 4096 }

/-!
## Decode pass: bitmap capability events, LZW oracle, compositing

The bitmap capability table (nsgif_bitmap_cb_vt) is client code; its
invocations are recorded as events.  vt_create_ok says whether the client's
create callback succeeds; create_fill is the pixel value a freshly created
client buffer holds; vt_set_opaq / vt_modified say whether the optional
callbacks are present; vt_test_opaq is the test_opaq callback's return
value when present.
-/

inductive BitmapEvent where
  | create (w h : Nat)
  | get_buffer
  | modified
  | set_opaq (b : Bool)
  | test_opaq
deriving DecidableEq, Repr

/-- nsgif__error_from_lzw: the g_res mapping table. -/
def nsgif__error_from_lzw : lzw_result → nsgif_result
  | .LZW_OK => .NSGIF_OK
  | .LZW_OK_EOD => .NSGIF_END_OF_FRAME
  | .LZW_NO_MEM => .NSGIF_INSUFFICIENT_MEMORY
  | .LZW_NO_DATA => .NSGIF_INSUFFICIENT_DATA
  | .LZW_EOI_CODE => .NSGIF_FRAME_DATA_ERROR
  | .LZW_BAD_ICODE => .NSGIF_FRAME_DATA_ERROR
  | .LZW_BAD_CODE => .NSGIF_FRAME_DATA_ERROR
  | .LZW_BAD_PARAM => .NSGIF_FRAME_DATA_ERROR
  | .LZW_NO_COLOUR => .NSGIF_FRAME_DATA_ERROR

/-- Modelled from the spec: lzw.c is not under the sources.  Per the spec's
LZW contract, initialisation yields a status; on success both exposed modes
decode the same underlying uncompressed index stream, OK is returned
exactly with more data, and once the stream is exhausted a terminal status
(OK_EOD after the end-of-information code, NoData on truncation, BadCode
and the rest on corruption) is reported with no data.  The chunk sizes in
which stream mode hands out runs (and map mode fills its destination) are
an implementation artifact, kept free here: sizes and map_sizes list them,
clamped to be positive, with the whole remainder handed out once a list
runs dry. -/
structure LzwOracle where
  init_res : lzw_result
  stream : List Nat
  sizes : List Nat
  map_sizes : List Nat
  end_res : lzw_result
deriving DecidableEq, Repr

/-- Modelled from the spec: an oracle is well formed when its terminal
status is not OK (the spec returns OK exactly with more data). -/
def LzwOracle.wf (o : LzwOracle) : Prop := o.end_res ≠ .LZW_OK

instance (o : LzwOracle) : Decidable o.wf := by
  unfold LzwOracle.wf
  infer_instance

/-- The chunk handed out by one decoder call: the head size of the size
list clamped to at least 1, or everything that remains when the size list
is empty.  Returns (chunk, rest of stream, rest of sizes). -/
def lzw_chunk (rem sizes : List Nat) : List Nat × List Nat × List Nat :=
  let n := match sizes with
    | [] => rem.length
    | s :: _ => max s 1
  (rem.take n, rem.drop n, sizes.tail)

/-- Modelled from the spec: one stream-mode lzw_decode call.  Returns
(status, chunk, rest of stream, rest of sizes): OK with a nonempty chunk
while data remains, the terminal status with no data afterwards. -/
def lzw_decode (o_end : lzw_result) (rem sizes : List Nat) :
    lzw_result × List Nat × List Nat × List Nat :=
  if rem = [] then (o_end, [], [], sizes)
  else (.LZW_OK, (lzw_chunk rem sizes).1, (lzw_chunk rem sizes).2.1,
    (lzw_chunk rem sizes).2.2)

/-- One pixel write through the palette with the transparency skip: a
transparency index above 0xFF disables the skip (NSGIF_NO_TRANSPARENCY);
otherwise an index equal to it leaves the canvas pixel untouched.  Writes
past the end of the canvas are dropped (List.set is the identity out of
bounds), mirroring that clipping guarantees in-bounds writes in the
source. -/
def blit_px (ctable : List Nat) (tindex : Nat) (canvas : List Nat)
    (dst c : Nat) : List Nat :=
  if 0xFF < tindex then canvas.set dst (ctable.getD c 0)
  else if c ≠ tindex then canvas.set dst (ctable.getD c 0)
  else canvas

/-- A run of consecutive pixel writes starting at dst. -/
def blit_run (ctable : List Nat) (tindex : Nat) :
    List Nat → Nat → List Nat → List Nat
  | canvas, _, [] => canvas
  | canvas, dst, c :: cs =>
    blit_run ctable tindex (blit_px ctable tindex canvas dst c) (dst + 1) cs

/-- Modelled from the spec: one map-mode lzw_decode_map call.  Decodes at
most `pixels` indices (and at most one chunk), writes them through the
palette into the destination (skipping the transparency index) and reports
the number of destination pixels consumed; the terminal status is reported
with no data once the stream is exhausted.  Returns
(status, canvas, written, rest of stream, rest of sizes). -/
def lzw_decode_map (o_end : lzw_result) (ctable : List Nat) (tindex : Nat)
    (canvas : List Nat) (dst : Nat) (rem msizes : List Nat) (pixels : Nat) :
    lzw_result × List Nat × Nat × List Nat × List Nat :=
  if rem = [] then (o_end, canvas, 0, [], msizes)
  else
    let n := min pixels (match msizes with
      | [] => rem.length
      | s :: _ => max s 1)
    (.LZW_OK, blit_run ctable tindex canvas dst (rem.take n),
      (rem.take n).length, rem.drop n, msizes.tail)

/-- gif__clip: how much a frame rectangle overhangs the image extent. -/
def gif__clip (frame_off frame_dim image_ext : Nat) : Nat :=
  if frame_off + frame_dim ≤ image_ext then 0
  else frame_off + frame_dim - image_ext

/-- The lzw_decode_map consumption loop of nsgif__decode_simple.  Each
iteration with data left consumes at least one pixel, so stream length + 1
fuel is never exhausted; the post-loop override (pixels reaching 0 turns
any status into OK) is folded into the break. -/
def nsgif__decode_simple_go (o_end : lzw_result) (ctable : List Nat)
    (tindex : Nat) :
    Nat → List Nat → Nat → List Nat → List Nat → Nat → nsgif_result × List Nat
  | 0, canvas, _, _, _, pixels =>
    if pixels = 0 then (.NSGIF_OK, canvas) else (.NSGIF_DATA_ERROR, canvas)
  | fuel + 1, canvas, dst, rem, msizes, pixels =>
    if pixels = 0 then (.NSGIF_OK, canvas)
    else
      let r := lzw_decode_map o_end ctable tindex canvas dst rem msizes pixels
      if r.1 ≠ .LZW_OK then
        (if pixels - r.2.2.1 = 0 then .NSGIF_OK
          else if r.1 = .LZW_OK_EOD then .NSGIF_OK
          else nsgif__error_from_lzw r.1, r.2.1)
      else
        nsgif__decode_simple_go o_end ctable tindex fuel r.2.1
          (dst + r.2.2.1) r.2.2.2.1 r.2.2.2.2 (pixels - r.2.2.1)

/-- nsgif__decode_simple: the fast path.  Note pixels is computed from the
UNCLIPPED height before the clip is applied. -/
def nsgif__decode_simple (o : LzwOracle) (W H : Nat) (height offset_y : Nat)
    (tindex : Nat) (ctable : List Nat) (canvas : List Nat) :
    nsgif_result × List Nat :=
  let pixels := W * height
  if H ≤ offset_y then (.NSGIF_OK, canvas)
  else if height - gif__clip offset_y height H = 0 then (.NSGIF_OK, canvas)
  else if o.init_res ≠ .LZW_OK then (nsgif__error_from_lzw o.init_res, canvas)
  else
    nsgif__decode_simple_go o.end_res ctable tindex (o.stream.length + 1)
      canvas (offset_y * W) o.stream o.map_sizes pixels

/-- nsgif__next_row: non-interlaced frames step one row and stop at height;
interlaced frames follow nsgif__deinterlace. -/
def nsgif__next_row (interlace : Bool) (height y step : Nat) :
    Option (Nat × Nat) :=
  if interlace = false then (if y + 1 = height then none else some (y + 1, step))
  else nsgif__deinterlace height y step

/-- State carried between iterations of nsgif__decode_complex's loops:
the canvas, the unconsumed tail of the last chunk (uncompressed/available),
the rest of the stream and size list, the last lzw status, and the pending
skip count. -/
structure ComplexState where
  canvas : List Nat
  carry : List Nat
  rem : List Nat
  sizes : List Nat
  res : lzw_result
  skip : Nat
deriving DecidableEq, Repr

/-- The x-consumption loop of one row of nsgif__decode_complex, including
the inner refill loop (whose body checks the carried status, pulls a chunk,
returns NSGIF_OK on an empty one, and jumps pending skip).  Except.error
carries an early function return; Except.ok the state at the row's end.
Every iteration consumes a pixel of x or a stream element, so fuel
x + carry + stream + 1 is never exhausted. -/
def nsgif__decode_complex_row (o_end : lzw_result) (ctable : List Nat)
    (tindex : Nat) :
    Nat → List Nat → Nat → Nat → List Nat → List Nat → List Nat →
      lzw_result → Nat →
      Except (nsgif_result × List Nat) ComplexState
  | 0, canvas, _, _, _, _, _, _, _ =>
    .error (.NSGIF_DATA_ERROR, canvas)
  | fuel + 1, canvas, dst, x, carry, rem, sizes, res, skip =>
    if x = 0 then .ok ⟨canvas, carry, rem, sizes, res, skip⟩
    else if carry = [] then
      if res ≠ .LZW_OK then
        .error (if res = .LZW_OK_EOD then .NSGIF_OK
          else nsgif__error_from_lzw res, canvas)
      else
        let d := lzw_decode o_end rem sizes
        if d.2.1 = [] then .error (.NSGIF_OK, canvas)
        else
          let jump := min skip d.2.1.length
          nsgif__decode_complex_row o_end ctable tindex fuel canvas dst x
            (d.2.1.drop jump) d.2.2.1 d.2.2.2 d.1 (skip - jump)
    else
      let row_available := min x carry.length
      nsgif__decode_complex_row o_end ctable tindex fuel
        (blit_run ctable tindex canvas dst (carry.take row_available))
        (dst + row_available) (x - row_available) (carry.drop row_available)
        rem sizes res skip

/-- The row loop (do/while nsgif__next_row) of nsgif__decode_complex.  At
each row's end the skip is reset to clip_x and jumped against the carry
(gif__jump_data); NSGIF_OK is the result both at the natural end of the
rows and on the early available-ran-out return inside a row. -/
def nsgif__decode_complex_rows (o_end : lzw_result) (ctable : List Nat)
    (tindex : Nat) (W offset_x offset_y width2 height2 clip_x : Nat)
    (interlace : Bool) :
    Nat → Nat → Nat → List Nat → List Nat → List Nat → List Nat →
      lzw_result → Nat → nsgif_result × List Nat
  | 0, _, _, canvas, _, _, _, _, _ => (.NSGIF_DATA_ERROR, canvas)
  | fuel + 1, y, step, canvas, carry, rem, sizes, res, skip =>
    match nsgif__decode_complex_row o_end ctable tindex
        (width2 + carry.length + rem.length + 1) canvas
        (offset_x + (y + offset_y) * W) width2 carry rem sizes res skip with
    | .error e => e
    | .ok st =>
      let jump := min clip_x st.carry.length
      match nsgif__next_row interlace height2 y step with
      | none => (.NSGIF_OK, st.canvas)
      | some yst =>
        nsgif__decode_complex_rows o_end ctable tindex W offset_x offset_y
          width2 height2 clip_x interlace fuel yst.1 yst.2 st.canvas
          (st.carry.drop jump) st.rem st.sizes st.res (clip_x - jump)

/-- nsgif__decode_complex: the general path.  W and H are the canvas
dimensions (gif->width, gif->height); the rows fuel 2 * height2 + 4 covers
the at most height2 + 3 rows the interlace iterator visits. -/
def nsgif__decode_complex (o : LzwOracle) (W H : Nat)
    (width height offset_x offset_y : Nat) (interlace : Bool)
    (tindex : Nat) (ctable : List Nat) (canvas : List Nat) :
    nsgif_result × List Nat :=
  let clip_x := gif__clip offset_x width W
  let clip_y := gif__clip offset_y height H
  if W ≤ offset_x ∨ H ≤ offset_y then (.NSGIF_OK, canvas)
  else if width - clip_x = 0 ∨ height - clip_y = 0 then (.NSGIF_OK, canvas)
  else if o.init_res ≠ .LZW_OK then (nsgif__error_from_lzw o.init_res, canvas)
  else
    nsgif__decode_complex_rows o.end_res ctable tindex W offset_x offset_y
      (width - clip_x) (height - clip_y) clip_x interlace
      (2 * (height - clip_y) + 4) 0 24 canvas [] o.stream o.sizes .LZW_OK 0

/-- nsgif__decode: path selection.  GIF_MASK_INTERLACE is 0x40. -/
def nsgif__decode (o : LzwOracle) (gif : nsgif_animation)
    (frame : nsgif_frame) (canvas : List Nat) : nsgif_result × List Nat :=
  if frame.flags &&& 0x40 = 0 ∧ frame.redraw_w = gif.width ∧
      frame.redraw_x = 0 then
    nsgif__decode_simple o gif.width gif.height frame.redraw_h frame.redraw_y
      frame.transparency_index gif.colour_table canvas
  else
    nsgif__decode_complex o gif.width gif.height frame.redraw_w frame.redraw_h
      frame.redraw_x frame.redraw_y (frame.flags &&& 0x40 ≠ 0)
      frame.transparency_index gif.colour_table canvas

/-- memset / per-pixel fill of n consecutive canvas entries starting at
`start` with value v; writes past the end of the list are dropped. -/
def fill_range (canvas : List Nat) (start n v : Nat) : List Nat :=
  (List.range n).foldl (fun c i => c.set (start + i) v) canvas

/-- nsgif__restore_bg: with no frame, clear the whole canvas to
NSGIF_TRANSPARENT_COLOUR (0); with a frame, clear the frame's clipped
rectangle to transparent (when the frame has transparency) or to
gif->bg_colour, doing nothing for undisplayed or zero-width frames. -/
def nsgif__restore_bg (gif : nsgif_animation) (fr : Option nsgif_frame)
    (bitmap : List Nat) : List Nat :=
  match fr with
  | none => fill_range bitmap 0 (gif.width * gif.height) 0
  | some frame =>
    let width := frame.redraw_w - gif__clip frame.redraw_x frame.redraw_w gif.width
    let height := frame.redraw_h - gif__clip frame.redraw_y frame.redraw_h gif.height
    if frame.display = false ∨ width = 0 then bitmap
    else if frame.transparency then
      (List.range height).foldl
        (fun c y => fill_range c (frame.redraw_x + (frame.redraw_y + y) * gif.width) width 0)
        bitmap
    else
      (List.range height).foldl
        (fun c y => fill_range c (frame.redraw_x + (frame.redraw_y + y) * gif.width) width gif.bg_colour)
        bitmap

/-- nsgif__recover_frame: copy back the previous-frame snapshot row by row,
clipped to the smaller of the two geometries. -/
def nsgif__recover_frame (gif : nsgif_animation) (bitmap : List Nat) :
    nsgif_result × List Nat :=
  match gif.prev_frame with
  | none => (.NSGIF_FRAME_DATA_ERROR, bitmap)
  | some prev =>
    let h := min gif.height gif.prev_height
    let w := min gif.width gif.prev_width
    (.NSGIF_OK,
      (List.range h).foldl
        (fun c y => (List.range w).foldl
          (fun c2 x => c2.set (y * gif.width + x)
            (prev.getD (y * gif.prev_width + x) 0)) c)
        bitmap)

/-- nsgif__bitmap_get (including nsgif__initialise_sprite): lazily create
the client bitmap at the canvas dimensions and return its pixel buffer;
none models a failed create (the NULL return). -/
def nsgif__bitmap_get (gif : nsgif_animation) :
    Option (List Nat) × nsgif_animation × List BitmapEvent :=
  if gif.frame_image.isSome then (gif.frame_image, gif, [.get_buffer])
  else if gif.vt_create_ok then
    let fresh := List.replicate (gif.width * gif.height) gif.create_fill
    (some fresh, { gif with frame_image := some fresh },
      [.create gif.width gif.height, .get_buffer])
  else (none, gif, [.create gif.width gif.height])

/-- nsgif__record_frame: snapshot the canvas into prev_frame unless there
is no decoded frame or it is already recorded.  The realloc-failure path is
not modelled (allocation succeeds). -/
def nsgif__record_frame (gif : nsgif_animation) :
    nsgif_animation × List BitmapEvent :=
  if gif.decoded_frame = NSGIF_INVALID_FRAME ∨
      gif.decoded_frame = gif.prev_index then (gif, [])
  else
    let bg := nsgif__bitmap_get gif
    if bg.1.isNone then (bg.2.1, bg.2.2)
    else
      ({ bg.2.1 with
          prev_frame := some ((bg.1.getD []).take (bg.2.1.width * bg.2.1.height)),
          prev_width := bg.2.1.width,
          prev_height := bg.2.1.height,
          prev_index := bg.2.1.decoded_frame }, bg.2.2)

/-- nsgif__bitmap_set_opaq: invoke the optional set_opaq callback. -/
def nsgif__bitmap_set_opaq (gif : nsgif_animation) (frame : nsgif_frame) :
    List BitmapEvent :=
  if gif.vt_set_opaq then [.set_opaq frame.opaq] else []

/-- nsgif__bitmap_get_opaq: ask the optional test_opaq callback,
defaulting to false when absent. -/
def nsgif__bitmap_get_opaq (gif : nsgif_animation) :
    Bool × List BitmapEvent :=
  match gif.vt_test_opaq with
  | some b => (b, [.test_opaq])
  | none => (false, [])

/-- nsgif__bitmap_modified: invoke the optional modified callback. -/
def nsgif__bitmap_modified (gif : nsgif_animation) : List BitmapEvent :=
  if gif.vt_modified then [.modified] else []

/-- nsgif__update_bitmap.  Faithful to the source ordering: decoded_frame
is assigned frame_idx BEFORE the frame_idx == 0 ||
decoded_frame == NSGIF_INVALID_FRAME test (so that test's second disjunct
reads the just-assigned value); then the bitmap is fetched, the
pre-compose clearing/restoration applied, the frame recorded when its own
disposal is RESTORE_PREV (3), the pixels decoded, the modified callback
invoked, and the decoded/opaque latch set whenever it was unset, whatever
the decode result. -/
def nsgif__update_bitmap (o : LzwOracle) (gif0 : nsgif_animation)
    (frame : nsgif_frame) (frame_idx : Nat) :
    nsgif_result × nsgif_animation × nsgif_frame × List BitmapEvent :=
  let gifA := { gif0 with decoded_frame := (frame_idx : Int) }
  let bg := nsgif__bitmap_get gifA
  if bg.1.isNone then (.NSGIF_INSUFFICIENT_MEMORY, bg.2.1, frame, bg.2.2)
  else
    let gif1 := bg.2.1
    let bitmap := bg.1.getD []
    let canvas1 :=
      if frame_idx = 0 ∨ gif1.decoded_frame = NSGIF_INVALID_FRAME then
        nsgif__restore_bg gif1 none bitmap
      else
        let prev := gif1.frames.getD (frame_idx - 1) frame_zero
        if prev.disposal_method = 2 then nsgif__restore_bg gif1 (some prev) bitmap
        else if prev.disposal_method = 3 then
          (if (nsgif__recover_frame gif1 bitmap).1 ≠ .NSGIF_OK then
            nsgif__restore_bg gif1 (some prev) (nsgif__recover_frame gif1 bitmap).2
          else (nsgif__recover_frame gif1 bitmap).2)
        else bitmap
    let gif2 := { gif1 with frame_image := some canvas1 }
    let rc := if frame.disposal_method = 3 then nsgif__record_frame gif2
      else (gif2, [])
    let gif3 := rc.1
    let dec := nsgif__decode o gif3 frame (gif3.frame_image.getD [])
    let gif4 := { gif3 with frame_image := some dec.2 }
    let evM := nsgif__bitmap_modified gif4
    let frame2 := if frame.decoded = false then
        { frame with opaq := (nsgif__bitmap_get_opaq gif4).1, decoded := true }
      else frame
    let evT := if frame.decoded = false then (nsgif__bitmap_get_opaq gif4).2
      else []
    (dec.1, gif4, frame2, bg.2.2 ++ rc.2 ++ evM ++ evT ++
      nsgif__bitmap_set_opaq gif4 frame2)

/-- Decode branch (decode = true) of nsgif__parse_image_data: the trailer
and code-size checks as in the survey, then nsgif__update_bitmap; the
position out-parameter is never assigned on this branch and
frame_count_partial is not updated. -/
def nsgif__parse_image_data_decode (o : LzwOracle) (gif : nsgif_animation)
    (frame : nsgif_frame) (frame_idx pos : Nat) :
    nsgif_result × nsgif_animation × nsgif_frame × List BitmapEvent :=
  let buf := gif.nsgif_data
  let len := buf.length - pos
  if len = 0 then (.NSGIF_INSUFFICIENT_DATA, gif, frame, [])
  else if len = 1 then
    if buf.getD pos 0 = 0x3B then (.NSGIF_OK, gif, frame, [])
    else (.NSGIF_INSUFFICIENT_DATA, gif, frame, [])
  else if len = 2 then
    if buf.getD (pos + 1) 0 = 0x3B then (.NSGIF_OK, gif, frame, [])
    else if buf.getD pos 0 = 0x3B then (.NSGIF_OK, gif, frame, [])
    else (.NSGIF_INSUFFICIENT_DATA, gif, frame, [])
  else if buf.getD pos 0 = 0x3B then (.NSGIF_OK, gif, frame, [])
  else if LZW_CODE_MAX ≤ buf.getD pos 0 then (.NSGIF_DATA_ERROR, gif, frame, [])
  else
    let u := nsgif__update_bitmap o gif frame frame_idx
    (u.1, u.2.1, u.2.2.1, u.2.2.2)

/-- Decode pass of nsgif__process_frame (decode = true).  The result's
frame component is the final state of the aliased gif->frames[frame_idx]
record (also written back into the frames list of the animation
component); buffer_position is not updated on this pass.  Parsing starts
at the frame's recorded frame_pointer; the extension and descriptor stages
run with their decode flag false (!decode), the colour table with true. -/
def nsgif__process_frame_decode (o : LzwOracle) (gif0 : nsgif_animation)
    (frame_idx : Nat) :
    nsgif_result × nsgif_animation × nsgif_frame × List BitmapEvent :=
  let gif := (nsgif__get_frame gif0 frame_idx).1
  let frame := (nsgif__get_frame gif0 frame_idx).2
  let pos := frame.frame_pointer
  if frame.display = false then (.NSGIF_OK, gif, frame, [])
  else if gif.frame_count_part < frame_idx then
    (.NSGIF_INSUFFICIENT_DATA, gif, frame, [])
  else if (frame_idx : Int) = gif.decoded_frame then (.NSGIF_OK, gif, frame, [])
  else
    let s1 := nsgif__parse_frame_extensions gif frame false pos
    if s1.1 = .NSGIF_OK then
      let s2 := nsgif__parse_image_descriptor s1.2.1 s1.2.2.1 false s1.2.2.2
      if s2.1 = .NSGIF_OK then
        let s3 := nsgif__parse_colour_table s2.2.1 s2.2.2.1 true s2.2.2.2
        if s3.1 = .NSGIF_OK then
          let s4 := nsgif__parse_image_data_decode o s3.2.1 s2.2.2.1 frame_idx
            s3.2.2
          (s4.1, { s4.2.1 with
              frames := (s4.2.1).frames.set frame_idx s4.2.2.1 },
            s4.2.2.1, s4.2.2.2)
        else
          (s3.1, { s3.2.1 with
              frames := (s3.2.1).frames.set frame_idx s2.2.2.1 },
            s2.2.2.1, [])
      else
        (s2.1, { s2.2.1 with
            frames := (s2.2.1).frames.set frame_idx s2.2.2.1 },
          s2.2.2.1, [])
    else
      (s1.1, { s1.2.1 with
          frames := (s1.2.1).frames.set frame_idx s1.2.2.1 },
        s1.2.2.1, [])

def C10_gif : nsgif_animation :=
  { anim_zero with frames := [frame_zero], frame_holders := 1 }

def C10_oracle : LzwOracle :=
  { init_res := .LZW_OK, stream := [], sizes := [], map_sizes := [],
    end_res := .LZW_OK_EOD }

/-!
## Pre-compose transparent fill (claim C2)
-/

/-- A state about to decode frame 1 while no frame is materialised
(decoded_frame is the NSGIF_INVALID_FRAME sentinel): a stale 1x1 canvas
holding pixel 5, the previous frame with disposal NONE, and frame 1's
image data at offset 0. -/
def C2_gif : nsgif_animation :=
  { anim_zero with
      nsgif_data := [0x2C, 0, 0, 0, 0, 1, 0, 1, 0, 0, 2, 5, 170],
      width := 1, height := 1,
      frames := [{ frame_zero with display := true, disposal_method := 1 },
        { frame_zero with display := true }],
      frame_holders := 2, frame_count := 2, frame_count_part := 2,
      decoded_frame := NSGIF_INVALID_FRAME,
      frame_image := some [5],
      vt_create_ok := true }

def C2_oracle : LzwOracle :=
  { init_res := .LZW_OK, stream := [], sizes := [], map_sizes := [],
    end_res := .LZW_OK_EOD }

/-- C3 counterexample: the claim says a FrameDecode that returns an error
leaves the frame's decoded latch unchanged.  With an LZW context whose
initialisation fails with LZW_BAD_ICODE, decoding frame 0 of C3_gif returns
NSGIF_FRAME_DATA_ERROR, yet the latch flips from false to true: the
latch-setting block of nsgif__update_bitmap runs regardless of the decode
result. -/
def C3_frame : nsgif_frame :=
  { frame_zero with display := true, redraw_w := 1, redraw_h := 1 }

def C3_gif : nsgif_animation :=
  { anim_zero with
      nsgif_data := [0x2C, 0, 0, 0, 0, 1, 0, 1, 0, 0, 2, 5, 170],
      width := 1, height := 1,
      frames := [C3_frame],
      frame_holders := 1, frame_count := 1, frame_count_part := 1,
      vt_create_ok := true }

def C3_oracle : LzwOracle :=
  { init_res := .LZW_BAD_ICODE, stream := [], sizes := [], map_sizes := [],
    end_res := .LZW_OK_EOD }

def C3_w_gif : nsgif_animation :=
  { anim_zero with
      frames := [{ frame_zero with decoded := true }],
      frame_holders := 1 }

def C3_w_oracle : LzwOracle :=
  { init_res := .LZW_OK, stream := [], sizes := [], map_sizes := [],
    end_res := .LZW_OK_EOD }

def C6_gif : nsgif_animation :=
  { anim_zero with width := 2, height := 2, colour_table := [10, 11, 12] }

def C6_frame : nsgif_frame :=
  { frame_zero with
      flags := 0, redraw_x := 0, redraw_y := 0, redraw_w := 2,
      redraw_h := 3, transparency_index := 1 }

def C6_oracle : LzwOracle :=
  { init_res := .LZW_OK, stream := [0, 1, 0, 1, 0, 0], sizes := [1, 2],
    map_sizes := [3], end_res := .LZW_NO_DATA }

/-!
## Theorems
-/

/-! Closed forms of the four passes. -/

theorem filter_mod8_eq_0 (h : Nat) :
    ((List.range h).filter fun r => r % 8 = 0) =
      (List.range ((h + 7) / 8)).map (fun k => k * 8) := by
  induction h with
  | zero => rfl
  | succ n ih =>
    rw [List.range_succ, List.filter_append, ih]
    by_cases hn : n % 8 = 0
    · have h1 : (n + 1 + 7) / 8 = (n + 7) / 8 + 1 := by omega
      rw [h1, List.range_succ, List.map_append]
      simp only [List.filter_cons, List.filter_nil]
      have h2 : ((n + 7) / 8) * 8 = n := by omega
      simp [hn, h2]
    · have h1 : (n + 1 + 7) / 8 = (n + 7) / 8 := by omega
      rw [h1]
      simp only [List.filter_cons, List.filter_nil]
      simp [hn]

theorem filter_mod8_eq_4 (h : Nat) :
    ((List.range h).filter fun r => r % 8 = 4) =
      (List.range ((h + 3) / 8)).map (fun k => k * 8 + 4) := by
  induction h with
  | zero => rfl
  | succ n ih =>
    rw [List.range_succ, List.filter_append, ih]
    by_cases hn : n % 8 = 4
    · have h1 : (n + 1 + 3) / 8 = (n + 3) / 8 + 1 := by omega
      rw [h1, List.range_succ, List.map_append]
      simp only [List.filter_cons, List.filter_nil]
      have h2 : ((n + 3) / 8) * 8 + 4 = n := by omega
      simp [hn, h2]
    · have h1 : (n + 1 + 3) / 8 = (n + 3) / 8 := by omega
      rw [h1]
      simp only [List.filter_cons, List.filter_nil]
      simp [hn]

theorem filter_mod4_eq_2 (h : Nat) :
    ((List.range h).filter fun r => r % 4 = 2) =
      (List.range ((h + 1) / 4)).map (fun k => k * 4 + 2) := by
  induction h with
  | zero => rfl
  | succ n ih =>
    rw [List.range_succ, List.filter_append, ih]
    by_cases hn : n % 4 = 2
    · have h1 : (n + 1 + 1) / 4 = (n + 1) / 4 + 1 := by omega
      rw [h1, List.range_succ, List.map_append]
      simp only [List.filter_cons, List.filter_nil]
      have h2 : ((n + 1) / 4) * 4 + 2 = n := by omega
      simp [hn, h2]
    · have h1 : (n + 1 + 1) / 4 = (n + 1) / 4 := by omega
      rw [h1]
      simp only [List.filter_cons, List.filter_nil]
      simp [hn]

theorem filter_mod2_eq_1 (h : Nat) :
    ((List.range h).filter fun r => r % 2 = 1) =
      (List.range (h / 2)).map (fun k => k * 2 + 1) := by
  induction h with
  | zero => rfl
  | succ n ih =>
    rw [List.range_succ, List.filter_append, ih]
    by_cases hn : n % 2 = 1
    · have h1 : (n + 1) / 2 = n / 2 + 1 := by omega
      rw [h1, List.range_succ, List.map_append]
      simp only [List.filter_cons, List.filter_nil]
      have h2 : (n / 2) * 2 + 1 = n := by omega
      simp [hn, h2]
    · have h1 : (n + 1) / 2 = n / 2 := by omega
      rw [h1]
      simp only [List.filter_cons, List.filter_nil]
      simp [hn]

theorem interlacePassRows_closed (h : Nat) :
    interlacePassRows h =
      (List.range ((h + 7) / 8)).map (fun k => k * 8) ++
      (List.range ((h + 3) / 8)).map (fun k => k * 8 + 4) ++
      (List.range ((h + 1) / 4)).map (fun k => k * 4 + 2) ++
      (List.range (h / 2)).map (fun k => k * 2 + 1) := by
  rw [interlacePassRows, filter_mod8_eq_0, filter_mod8_eq_4, filter_mod4_eq_2,
    filter_mod2_eq_1]

theorem map_range_succ (g : Nat → Nat) (m : Nat) :
    (List.range (m + 1)).map g = g 0 :: (List.range m).map (fun k => g (k + 1)) := by
  rw [List.range_succ_eq_map, List.map_cons, List.map_map]
  rfl

/-! Pointwise closed form of gif_interlaced_line per pass region. -/

theorem gif_interlaced_line_seq (h : Nat) :
    (List.range h).map (gif_interlaced_line h) = interlacePassRows h := by
  rw [interlacePassRows_closed]
  have hsum : h = (h + 7) / 8 + ((h + 3) / 8 + ((h + 1) / 4 + h / 2)) := by omega
  have h1 : List.range h =
      List.range ((h + 7) / 8) ++
        (List.range ((h + 3) / 8 + ((h + 1) / 4 + h / 2))).map
          (fun x => (h + 7) / 8 + x) := by
    conv_lhs => rw [hsum]
    exact List.range_add _ _
  have h2 : List.range ((h + 3) / 8 + ((h + 1) / 4 + h / 2)) =
      List.range ((h + 3) / 8) ++
        (List.range ((h + 1) / 4 + h / 2)).map (fun x => (h + 3) / 8 + x) :=
    List.range_add _ _
  have h3 : List.range ((h + 1) / 4 + h / 2) =
      List.range ((h + 1) / 4) ++ (List.range (h / 2)).map (fun x => (h + 1) / 4 + x) :=
    List.range_add _ _
  rw [h1, h2, h3]
  simp only [List.map_append, List.map_map, List.append_assoc]
  congr 1
  · refine List.map_congr_left fun a ha => ?_
    rw [List.mem_range] at ha
    unfold gif_interlaced_line
    split_ifs <;> omega
  congr 1
  · refine List.map_congr_left fun a ha => ?_
    rw [List.mem_range] at ha
    simp only [Function.comp]
    unfold gif_interlaced_line
    split_ifs <;> omega
  congr 1
  · refine List.map_congr_left fun a ha => ?_
    rw [List.mem_range] at ha
    simp only [Function.comp]
    unfold gif_interlaced_line
    split_ifs <;> omega
  · refine List.map_congr_left fun a ha => ?_
    rw [List.mem_range] at ha
    simp only [Function.comp]
    unfold gif_interlaced_line
    split_ifs <;> omega

/-! Step lemmas for nsgif__deinterlace at each of the four step values. -/

theorem deinterlace_2_lt (h y : Nat) (hy : y + 2 < h) :
    nsgif__deinterlace h y 2 = some (y + 2, 2) := by
  unfold nsgif__deinterlace
  norm_num [hy]

theorem deinterlace_2_ge (h y : Nat) (hy : ¬ y + 2 < h) :
    nsgif__deinterlace h y 2 = none := by
  unfold nsgif__deinterlace
  norm_num [hy]

theorem deinterlace_4_lt (h y : Nat) (hy : y + 4 < h) :
    nsgif__deinterlace h y 4 = some (y + 4, 4) := by
  unfold nsgif__deinterlace
  norm_num [hy]

theorem deinterlace_4_ge (h y : Nat) (hy : ¬ y + 4 < h) (h1 : 1 < h) :
    nsgif__deinterlace h y 4 = some (1, 2) := by
  unfold nsgif__deinterlace
  norm_num [hy, h1]

theorem deinterlace_8_lt (h y : Nat) (hy : y + 8 < h) :
    nsgif__deinterlace h y 8 = some (y + 8, 8) := by
  unfold nsgif__deinterlace
  norm_num [hy]

theorem deinterlace_8_ge (h y : Nat) (hy : ¬ y + 8 < h) (h2 : 2 < h) :
    nsgif__deinterlace h y 8 = some (2, 4) := by
  unfold nsgif__deinterlace
  norm_num [hy, h2]

theorem deinterlace_24_lt (h y : Nat) (hy : y + 8 < h) :
    nsgif__deinterlace h y 24 = some (y + 8, 24) := by
  unfold nsgif__deinterlace
  norm_num [hy]

theorem deinterlace_24_ge4 (h y : Nat) (hy : ¬ y + 8 < h) (h4 : 4 < h) :
    nsgif__deinterlace h y 24 = some (4, 8) := by
  unfold nsgif__deinterlace
  norm_num [hy, h4]

theorem deinterlace_24_ge2 (h y : Nat) (hy : ¬ y + 8 < h) (h4 : ¬ 4 < h) (h2 : 2 < h) :
    nsgif__deinterlace h y 24 = some (2, 4) := by
  unfold nsgif__deinterlace
  norm_num [hy, h4, h2]

theorem deinterlace_24_ge1 (h y : Nat) (hy : ¬ y + 8 < h) (h2 : ¬ 2 < h) (h1 : 1 < h) :
    nsgif__deinterlace h y 24 = some (1, 2) := by
  have h4 : ¬ 4 < h := by omega
  unfold nsgif__deinterlace
  norm_num [hy, h4, h2, h1]

theorem deinterlace_24_end (h y : Nat) (hy : ¬ y + 8 < h) (h1 : ¬ 1 < h) :
    nsgif__deinterlace h y 24 = none := by
  have h4 : ¬ 4 < h := by omega
  have h2 : ¬ 2 < h := by omega
  unfold nsgif__deinterlace
  norm_num [hy, h4, h2, h1]

theorem deinterlace_go_some (fuel h y s y2 s2 : Nat)
    (hstep : nsgif__deinterlace h y s = some (y2, s2)) :
    nsgif__deinterlace_go (fuel + 1) h y s = y2 :: nsgif__deinterlace_go fuel h y2 s2 := by
  rw [nsgif__deinterlace_go, hstep]

theorem deinterlace_go_none (fuel h y s : Nat)
    (hstep : nsgif__deinterlace h y s = none) :
    nsgif__deinterlace_go (fuel + 1) h y s = [] := by
  rw [nsgif__deinterlace_go, hstep]

/-! Trace lemmas: the iterator from each pass state produces the remaining
rows of that pass, followed by the later passes in full. -/

theorem deinterlace_go_pass4 (h : Nat) :
    ∀ fuel y, y % 2 = 1 → y < h → (h - (y + 1)) / 2 ≤ fuel →
      nsgif__deinterlace_go fuel h y 2 =
        (List.range ((h - (y + 1)) / 2)).map (fun k => y + 2 + k * 2) := by
  intro fuel
  induction fuel with
  | zero =>
    intro y _ _ hf
    have : (h - (y + 1)) / 2 = 0 := by omega
    simp [nsgif__deinterlace_go, this]
  | succ n ih =>
    intro y hm hy hf
    by_cases hlt : y + 2 < h
    · rw [deinterlace_go_some n h y 2 (y + 2) 2 (deinterlace_2_lt h y hlt)]
      rw [ih (y + 2) (by omega) hlt (by omega)]
      have hc : (h - (y + 1)) / 2 = (h - (y + 3)) / 2 + 1 := by omega
      rw [hc, map_range_succ]
      refine congrArg₂ _ (by omega) ?_
      refine List.map_congr_left fun a _ => ?_
      omega
    · rw [deinterlace_go_none n h y 2 (deinterlace_2_ge h y hlt)]
      have : (h - (y + 1)) / 2 = 0 := by omega
      simp [this]

theorem deinterlace_go_pass3 (h : Nat) :
    ∀ fuel y, y % 4 = 2 → y < h →
      (h - (y + 1)) / 4 + 1 + (h - 2) / 2 ≤ fuel →
      nsgif__deinterlace_go fuel h y 4 =
        (List.range ((h - (y + 1)) / 4)).map (fun k => y + 4 + k * 4) ++
          (List.range (h / 2)).map (fun k => k * 2 + 1) := by
  intro fuel
  induction fuel with
  | zero => intro y _ _ hf; omega
  | succ n ih =>
    intro y hm hy hf
    by_cases hlt : y + 4 < h
    · rw [deinterlace_go_some n h y 4 (y + 4) 4 (deinterlace_4_lt h y hlt)]
      rw [ih (y + 4) (by omega) hlt (by omega)]
      have hc : (h - (y + 1)) / 4 = (h - (y + 5)) / 4 + 1 := by omega
      rw [hc, map_range_succ, List.cons_append]
      refine congrArg₂ _ (by omega) ?_
      refine congrArg₂ _ ?_ rfl
      refine List.map_congr_left fun a _ => ?_
      omega
    · have h1 : 1 < h := by omega
      rw [deinterlace_go_some n h y 4 1 2 (deinterlace_4_ge h y hlt h1)]
      rw [deinterlace_go_pass4 h n 1 (by omega) (by omega) (by omega)]
      have hc : (h - (y + 1)) / 4 = 0 := by omega
      have hc2 : h / 2 = (h - 2) / 2 + 1 := by omega
      rw [hc, hc2, map_range_succ]
      simp only [List.range_zero, List.map_nil, List.nil_append]
      refine congrArg₂ _ (by omega) ?_
      refine List.map_congr_left fun a _ => ?_
      omega

theorem deinterlace_go_pass2 (h : Nat) :
    ∀ fuel y, y % 8 = 4 → y < h →
      (h - (y + 1)) / 8 + 1 + (h - 3) / 4 + 1 + (h - 2) / 2 ≤ fuel →
      nsgif__deinterlace_go fuel h y 8 =
        (List.range ((h - (y + 1)) / 8)).map (fun k => y + 8 + k * 8) ++
          (List.range ((h + 1) / 4)).map (fun k => k * 4 + 2) ++
          (List.range (h / 2)).map (fun k => k * 2 + 1) := by
  intro fuel
  induction fuel with
  | zero => intro y _ _ hf; omega
  | succ n ih =>
    intro y hm hy hf
    by_cases hlt : y + 8 < h
    · rw [deinterlace_go_some n h y 8 (y + 8) 8 (deinterlace_8_lt h y hlt)]
      rw [ih (y + 8) (by omega) hlt (by omega)]
      have hc : (h - (y + 1)) / 8 = (h - (y + 9)) / 8 + 1 := by omega
      rw [hc, map_range_succ, List.cons_append, List.cons_append]
      refine congrArg₂ _ (by omega) ?_
      refine congrArg₂ _ ?_ rfl
      refine congrArg₂ _ ?_ rfl
      refine List.map_congr_left fun a _ => ?_
      omega
    · have h2 : 2 < h := by omega
      rw [deinterlace_go_some n h y 8 2 4 (deinterlace_8_ge h y hlt h2)]
      rw [deinterlace_go_pass3 h n 2 (by omega) (by omega) (by omega)]
      have hc : (h - (y + 1)) / 8 = 0 := by omega
      have hc3 : (h + 1) / 4 = (h - 3) / 4 + 1 := by omega
      rw [hc, hc3, map_range_succ]
      simp only [List.range_zero, List.map_nil, List.nil_append, List.cons_append]
      refine congrArg₂ _ (by omega) ?_
      refine congrArg₂ _ ?_ rfl
      refine List.map_congr_left fun a _ => ?_
      omega

theorem deinterlace_go_pass1 (h : Nat) :
    ∀ fuel y, y % 8 = 0 → y < h →
      (h - (y + 1)) / 8 + 1 + (h - 5) / 8 + 1 + (h - 3) / 4 + 1 + (h - 2) / 2 ≤ fuel →
      nsgif__deinterlace_go fuel h y 24 =
        (List.range ((h - (y + 1)) / 8)).map (fun k => y + 8 + k * 8) ++
          (List.range ((h + 3) / 8)).map (fun k => k * 8 + 4) ++
          (List.range ((h + 1) / 4)).map (fun k => k * 4 + 2) ++
          (List.range (h / 2)).map (fun k => k * 2 + 1) := by
  intro fuel
  induction fuel with
  | zero => intro y _ _ hf; omega
  | succ n ih =>
    intro y hm hy hf
    by_cases hlt : y + 8 < h
    · rw [deinterlace_go_some n h y 24 (y + 8) 24 (deinterlace_24_lt h y hlt)]
      rw [ih (y + 8) (by omega) hlt (by omega)]
      have hc : (h - (y + 1)) / 8 = (h - (y + 9)) / 8 + 1 := by omega
      rw [hc, map_range_succ, List.cons_append, List.cons_append, List.cons_append]
      refine congrArg₂ _ (by omega) ?_
      refine congrArg₂ _ ?_ rfl
      refine congrArg₂ _ ?_ rfl
      refine congrArg₂ _ ?_ rfl
      refine List.map_congr_left fun a _ => ?_
      omega
    · have hc : (h - (y + 1)) / 8 = 0 := by omega
      by_cases h4 : 4 < h
      · rw [deinterlace_go_some n h y 24 4 8 (deinterlace_24_ge4 h y hlt h4)]
        rw [deinterlace_go_pass2 h n 4 (by omega) (by omega) (by omega)]
        have hc2 : (h + 3) / 8 = (h - 5) / 8 + 1 := by omega
        rw [hc, hc2, map_range_succ]
        simp only [List.range_zero, List.map_nil, List.nil_append, List.cons_append]
        refine congrArg₂ _ (by omega) ?_
        refine congrArg₂ _ ?_ rfl
        refine congrArg₂ _ ?_ rfl
        refine List.map_congr_left fun a _ => ?_
        omega
      · by_cases h2 : 2 < h
        · rw [deinterlace_go_some n h y 24 2 4 (deinterlace_24_ge2 h y hlt h4 h2)]
          rw [deinterlace_go_pass3 h n 2 (by omega) (by omega) (by omega)]
          have hc2 : (h + 3) / 8 = 0 := by omega
          have hc3 : (h + 1) / 4 = (h - 3) / 4 + 1 := by omega
          rw [hc, hc2, hc3, map_range_succ]
          simp only [List.range_zero, List.map_nil, List.nil_append, List.cons_append]
          refine congrArg₂ _ (by omega) ?_
          refine congrArg₂ _ ?_ rfl
          refine List.map_congr_left fun a _ => ?_
          omega
        · by_cases h1 : 1 < h
          · rw [deinterlace_go_some n h y 24 1 2 (deinterlace_24_ge1 h y hlt h2 h1)]
            rw [deinterlace_go_pass4 h n 1 (by omega) (by omega) (by omega)]
            have hc2 : (h + 3) / 8 = 0 := by omega
            have hc3 : (h + 1) / 4 = 0 := by omega
            have hc4 : h / 2 = 1 := by omega
            have hc5 : (h - (1 + 1)) / 2 = 0 := by omega
            rw [hc, hc2, hc3, hc4, hc5]
            simp [List.range_succ]
          · rw [deinterlace_go_none n h y 24 (deinterlace_24_end h y hlt h1)]
            have hc2 : (h + 3) / 8 = 0 := by omega
            have hc3 : (h + 1) / 4 = 0 := by omega
            have hc4 : h / 2 = 0 := by omega
            rw [hc, hc2, hc3, hc4]
            simp

theorem nsgif__deinterlace_rows_eq (h : Nat) (hp : 0 < h) :
    nsgif__deinterlace_rows h = interlacePassRows h := by
  rw [nsgif__deinterlace_rows,
    deinterlace_go_pass1 h (2 * h + 4) 0 (by omega) hp (by omega),
    interlacePassRows_closed]
  have hc : (h + 7) / 8 = (h - 1) / 8 + 1 := by omega
  rw [hc, map_range_succ, List.cons_append, List.cons_append, List.cons_append]
  refine congrArg₂ _ (by omega) ?_
  refine congrArg₂ _ ?_ rfl
  refine congrArg₂ _ ?_ rfl
  refine congrArg₂ _ ?_ rfl
  refine List.map_congr_left fun a _ => ?_
  omega

/-- C5: For every interlaced frame of height h, the rows visited by the
decoder are exactly the four GIF interlace passes in order - rows 0,8,16,...
then 4,12,20,... then 2,6,10,... then 1,3,5,... each restricted to rows below
h - both for the closed-form computation gif_interlaced_line (legacy decoder,
which evaluates it at y = 0,...,h-1) and for the step-variable iterator
nsgif__deinterlace (current decoder, step initialised to 24 and driven by the
decode do-while loop). -/
theorem C5_interlace_passes (h : Nat) (hp : 0 < h) :
    (List.range h).map (gif_interlaced_line h) = interlacePassRows h ∧
      nsgif__deinterlace_rows h = interlacePassRows h :=
  ⟨gif_interlaced_line_seq h, nsgif__deinterlace_rows_eq h hp⟩

/-- Witness for C5 at height 8 (the spec's S6 scenario): the sequence is
0,8?,..., here 0,4,2,6,1,3,5,7. -/
theorem C5_interlace_passes_witness :
    0 < 8 ∧
      ((List.range 8).map (gif_interlaced_line 8) = interlacePassRows 8 ∧
        nsgif__deinterlace_rows 8 = interlacePassRows 8) :=
  ⟨by decide, C5_interlace_passes 8 (by decide)⟩

/-- Bridge between the source's if-cascade and the spec's set description. -/
theorem lsd_quirk_spec (w h : Nat) :
    (((w, h) ∈ quirkDims ∨ w = 0 ∨ h = 0 ∨ 2048 < w ∨ 2048 < h) →
      nsgif__lsd_size_quirk w h = (1, 1)) ∧
    (¬ ((w, h) ∈ quirkDims ∨ w = 0 ∨ h = 0 ∨ 2048 < w ∨ 2048 < h) →
      nsgif__lsd_size_quirk w h = (w, h)) := by
  have hiff : ((w, h) ∈ quirkDims ∨ w = 0 ∨ h = 0 ∨ 2048 < w ∨ 2048 < h) ↔
      ((w = 640 ∧ h = 480) ∨ (w = 640 ∧ h = 512) ∨ (w = 800 ∧ h = 600) ∨
        (w = 1024 ∧ h = 768) ∨ (w = 1280 ∧ h = 1024) ∨ (w = 1600 ∧ h = 1200) ∨
        (w = 0 ∨ h = 0) ∨ (w > 2048 ∨ h > 2048)) := by
    simp only [quirkDims, List.mem_cons, List.not_mem_nil, or_false,
      Prod.mk.injEq, or_assoc, gt_iff_lt]
  refine ⟨fun hq => ?_, fun hq => ?_⟩ <;> rw [nsgif__lsd_size_quirk]
  · rw [if_pos (hiff.mp hq)]
  · rw [if_neg (fun hcon => hq (hiff.mpr hcon))]

/-- C7: for every logical screen descriptor, if the parsed width and height
are one of the six quirk screen sizes, or either dimension is 0, or either
dimension exceeds 2048, then the canvas dimensions are reset to 1x1
immediately after parsing; otherwise the parsed dimensions are kept
unchanged. -/
theorem C7_lsd_size_quirk (buf : List Nat) (pos pos2 : Nat) (info : LsdInfo)
    (hp : nsgif__parse_logical_screen_descriptor buf pos = some (info, pos2)) :
    (((info.width, info.height) ∈ quirkDims ∨ info.width = 0 ∨ info.height = 0 ∨
        2048 < info.width ∨ 2048 < info.height) →
      nsgif__lsd_size_quirk info.width info.height = (1, 1)) ∧
    (¬ ((info.width, info.height) ∈ quirkDims ∨ info.width = 0 ∨ info.height = 0 ∨
        2048 < info.width ∨ 2048 < info.height) →
      nsgif__lsd_size_quirk info.width info.height = (info.width, info.height)) ∧
    info.width = peek16le buf pos ∧ info.height = peek16le buf (pos + 2) ∧
    pos2 = pos + 7 := by
  by_cases hlen : buf.length - pos < 7
  · rw [nsgif__parse_logical_screen_descriptor, if_pos hlen] at hp
    cases hp
  · rw [nsgif__parse_logical_screen_descriptor, if_neg hlen,
      Option.some.injEq, Prod.mk.injEq] at hp
    obtain ⟨h1, h2⟩ := hp
    subst h1
    subst h2
    exact ⟨(lsd_quirk_spec _ _).1, (lsd_quirk_spec _ _).2, rfl, rfl, rfl⟩

/-- Witness for C7: a concrete 7-byte descriptor (800x600, a quirk size). -/
theorem C7_lsd_size_quirk_witness :
    nsgif__parse_logical_screen_descriptor [0x20, 0x03, 0x58, 0x02, 0, 0, 0] 0 =
        some ({ width := 800, height := 600, global_colours := false,
                colour_table_size := 2, bg_index := 0, aspect_rat := 0,
                loop_count := 1 }, 7) ∧
      nsgif__lsd_size_quirk 800 600 = (1, 1) := by
  refine ⟨by decide, ?_⟩
  have h := C7_lsd_size_quirk [0x20, 0x03, 0x58, 0x02, 0, 0, 0] 0 7
    { width := 800, height := 600, global_colours := false,
      colour_table_size := 2, bg_index := 0, aspect_rat := 0, loop_count := 1 }
    (by decide)
  exact h.1 (by decide)

/-- C8: for every graphic control extension parsed (with at least 6 bytes
available), if the raw disposal field (bits 2-4 of the packed byte) is 4 then
the recorded disposal method is 3 (RestorePrevious); and the frame's
redraw_required flag is set if and only if the recorded disposal method is 2
(RestoreBackground) or 3 (RestorePrevious). -/
theorem C8_graphic_control_disposal (frame : nsgif_frame) (buf : List Nat)
    (pos len : Nat) (hlen : 6 ≤ len) :
    (((buf.getD (pos + 2) 0 &&& 0x1c) >>> 2 = 4 →
        (nsgif__parse_extension_graphic_control frame buf pos len).2.disposal_method
          = 3)) ∧
    ((nsgif__parse_extension_graphic_control frame buf pos len).2.redraw_required
        = true ↔
      (nsgif__parse_extension_graphic_control frame buf pos len).2.disposal_method
          = 2 ∨
        (nsgif__parse_extension_graphic_control frame buf pos len).2.disposal_method
          = 3) := by
  rw [nsgif__parse_extension_graphic_control, if_neg (by omega)]
  set b2 := buf.getD (pos + 2) 0 with hb
  constructor
  · intro h4
    by_cases ht : b2 &&& 0x01 ≠ 0 <;> simp [ht, h4]
  · by_cases ht : b2 &&& 0x01 ≠ 0 <;>
      by_cases h4 : (b2 &&& 0x1c) >>> 2 = 4 <;>
        simp [ht, h4, Bool.or_eq_true, beq_iff_eq]

/-- Witness for C8: a concrete graphic control extension with packed byte
0x11 (raw disposal 4, transparency set). -/
theorem C8_graphic_control_disposal_witness :
    6 ≤ 6 ∧
      ((([0xf9, 0x04, 0x11, 0x0a, 0x00, 0x07] : List Nat).getD (0 + 2) 0 &&& 0x1c)
          >>> 2 = 4 →
        (nsgif__parse_extension_graphic_control frame_zero
            [0xf9, 0x04, 0x11, 0x0a, 0x00, 0x07] 0 6).2.disposal_method = 3) ∧
      ((nsgif__parse_extension_graphic_control frame_zero
            [0xf9, 0x04, 0x11, 0x0a, 0x00, 0x07] 0 6).2.redraw_required = true ↔
        (nsgif__parse_extension_graphic_control frame_zero
            [0xf9, 0x04, 0x11, 0x0a, 0x00, 0x07] 0 6).2.disposal_method = 2 ∨
          (nsgif__parse_extension_graphic_control frame_zero
            [0xf9, 0x04, 0x11, 0x0a, 0x00, 0x07] 0 6).2.disposal_method = 3) := by
  refine ⟨by decide, ?_, ?_⟩
  · exact (C8_graphic_control_disposal frame_zero
      [0xf9, 0x04, 0x11, 0x0a, 0x00, 0x07] 0 6 (by decide)).1
  · exact (C8_graphic_control_disposal frame_zero
      [0xf9, 0x04, 0x11, 0x0a, 0x00, 0x07] 0 6 (by decide)).2

theorem skip_sub_blocks_lt (buf : List Nat) (stop : Nat) :
    ∀ fuel p q, skip_sub_blocks fuel buf p stop = some q → p < q := by
  intro fuel
  induction fuel with
  | zero => intro p q h; simp [skip_sub_blocks] at h
  | succ n ih =>
    intro p q h
    rw [skip_sub_blocks] at h
    by_cases h1 : p < stop ∧ buf.getD p 0 ≠ 0
    · rw [if_pos h1] at h
      by_cases h2 : stop ≤ p + buf.getD p 0 + 1
      · rw [if_pos h2] at h; cases h
      · rw [if_neg h2] at h
        have := ih _ _ h
        omega
    · rw [if_neg h1] at h
      rw [Option.some.injEq] at h
      omega

/-!
## The current survey never writes the source window (claim C4)
-/

theorem nsgif__parse_extension_application_data (gif : nsgif_animation)
    (pos len : Nat) :
    ((nsgif__parse_extension_application gif pos len).2).nsgif_data =
      gif.nsgif_data := by
  rw [nsgif__parse_extension_application]
  split_ifs <;> rfl

theorem nsgif__frame_extension_switch_data (gif : nsgif_animation)
    (frame : nsgif_frame) (decode : Bool) (stop pos1 : Nat) :
    ((nsgif__frame_extension_switch gif frame decode stop pos1).2.1).nsgif_data =
      gif.nsgif_data := by
  rw [nsgif__frame_extension_switch]
  split_ifs
  · rfl
  · exact nsgif__parse_extension_application_data gif pos1 (stop - pos1)
  · rfl

theorem nsgif__parse_frame_extensions_go_data (fuel : Nat) :
    ∀ (gif : nsgif_animation) (frame : nsgif_frame) (decode : Bool)
      (stop pos : Nat),
      ((nsgif__parse_frame_extensions_go fuel gif frame decode stop
        pos).2.1).nsgif_data = gif.nsgif_data := by
  induction fuel with
  | zero => intro gif frame decode stop pos; rfl
  | succ n ih =>
    intro gif frame decode stop pos
    rw [nsgif__parse_frame_extensions_go]
    split_ifs with h1 h2 h3 h4 h5
    · rfl
    · exact nsgif__frame_extension_switch_data gif frame decode stop (pos + 1)
    · exact nsgif__frame_extension_switch_data gif frame decode stop (pos + 1)
    · split
      · exact nsgif__frame_extension_switch_data gif frame decode stop (pos + 1)
      · rw [ih]
        exact nsgif__frame_extension_switch_data gif frame decode stop (pos + 1)
    · split
      · exact nsgif__frame_extension_switch_data gif frame decode stop (pos + 1)
      · rw [ih]
        exact nsgif__frame_extension_switch_data gif frame decode stop (pos + 1)
    · rfl

theorem nsgif__parse_frame_extensions_data (gif : nsgif_animation)
    (frame : nsgif_frame) (decode : Bool) (pos : Nat) :
    ((nsgif__parse_frame_extensions gif frame decode pos).2.1).nsgif_data =
      gif.nsgif_data := by
  rw [nsgif__parse_frame_extensions]
  split_ifs
  · exact nsgif__parse_frame_extensions_go_data _ gif frame decode _ pos
  · exact nsgif__parse_frame_extensions_go_data _ gif frame decode _ pos

theorem nsgif__parse_image_descriptor_data (gif : nsgif_animation)
    (frame : nsgif_frame) (decode : Bool) (pos : Nat) :
    ((nsgif__parse_image_descriptor gif frame decode pos).2.1).nsgif_data =
      gif.nsgif_data := by
  rw [nsgif__parse_image_descriptor]
  split_ifs <;> rfl

theorem nsgif__parse_colour_table_data (gif : nsgif_animation)
    (frame : nsgif_frame) (decode : Bool) (pos : Nat) :
    ((nsgif__parse_colour_table gif frame decode pos).2.1).nsgif_data =
      gif.nsgif_data := by
  rw [nsgif__parse_colour_table]
  split_ifs with h1
  · rfl
  · rcases hE : nsgif__colour_table_extract gif gif.local_colour_table
      (2 <<< (frame.flags &&& 0x07)) decode pos with ⟨r, t2, p2⟩
    cases r <;> rfl

theorem nsgif__parse_image_data_scan_data (gif : nsgif_animation)
    (frame_idx pos : Nat) :
    ((nsgif__parse_image_data_scan gif frame_idx pos).2.1).nsgif_data =
      gif.nsgif_data := by
  rw [nsgif__parse_image_data_scan]
  split_ifs with h1 h2 h3 h4 h5 h6 h7 h8
  · rfl
  · rfl
  · rfl
  · rfl
  · rfl
  · rfl
  · rfl
  · rfl
  · cases hW : nsgif__image_data_walk (gif.nsgif_data.length - pos - 1)
      gif.nsgif_data (pos + 1) (gif.nsgif_data.length - pos - 1) with
    | insufficient => simp only [hW]
    | overrun => simp only [hW]
    | complete p => simp only [hW]; split_ifs <;> rfl

theorem nsgif__get_frame_data (gif : nsgif_animation) (frame_idx : Nat) :
    ((nsgif__get_frame gif frame_idx).1).nsgif_data = gif.nsgif_data := by
  rw [nsgif__get_frame]
  split_ifs <;> rfl

/-- C4 counterexample: the claim that a survey never writes the borrowed
source window is false for the legacy decoder.  On the window [2, 5, 170]
(minimum code size 2, then a 5-byte sub-block that overruns the remaining 1
byte), gif_initialise_frame patches the window in place to [2, 0, 0x3B]
(zero terminator and a forged GIF trailer) and reports the frame complete
and displayable with GIF_OK. -/
theorem C4_legacy_survey_writes_window :
    (gif_initialise_frame_data [2, 5, 170] 0).2.1 ≠ [2, 5, 170] ∧
      gif_initialise_frame_data [2, 5, 170] 0 =
        (.GIF_OK, [2, 0, 0x3B], 2, true) := by
  decide

/-- C4 (amended): the current decoder's survey pass never writes the
borrowed source window: after nsgif__process_frame_scan every byte of
nsgif_data is unchanged.  (The legacy gif_initialise_frame violates the
claim by patching the window on a sub-block overrun.) -/
theorem C4_scan_window_immutability (gif0 : nsgif_animation)
    (frame_idx : Nat) :
    ((nsgif__process_frame_scan gif0 frame_idx).2).nsgif_data =
      gif0.nsgif_data := by
  have hg := nsgif__get_frame_data gif0 frame_idx
  simp only [nsgif__process_frame_scan]
  split_ifs with h1 h2 h3 h4 h5
  · exact hg
  · exact hg
  · exact (nsgif__parse_image_data_scan_data _ _ _).trans
      ((nsgif__parse_colour_table_data _ _ _ _).trans
        ((nsgif__parse_image_descriptor_data _ _ _ _).trans
          ((nsgif__parse_frame_extensions_data _ _ _ _).trans hg)))
  · exact (nsgif__parse_colour_table_data _ _ _ _).trans
      ((nsgif__parse_image_descriptor_data _ _ _ _).trans
        ((nsgif__parse_frame_extensions_data _ _ _ _).trans hg))
  · exact (nsgif__parse_image_descriptor_data _ _ _ _).trans
      ((nsgif__parse_frame_extensions_data _ _ _ _).trans hg)
  · exact (nsgif__parse_frame_extensions_data _ _ _ _).trans hg

/-- C1 counterexample: the claim says a survey in which a frame's
sub-block chain would run past the end of the buffer returns
InsufficientData, and that supplying the missing bytes and re-running Scan
then completes the frame.  Both parts fail.  On C1_gif the final sub-block
(length 5, one byte available) strictly overruns, yet the survey returns
NSGIF_OK, with the frame counted in frame_count_part and left out of
frame_count.  On C1_trunc_gif (truncated exactly at the end of a
sub-block) the survey does return NSGIF_INSUFFICIENT_DATA, but it stores
the minimum-code-size position 10 into buffer_position, so the re-run on
C1_retry_gif (that very state with the missing terminator, the trailer and
more bytes appended) resumes mid-frame, fails the image descriptor's 0x2C
separator check and returns NSGIF_FRAME_DATA_ERROR with the frame still
uncounted and not displayable: the retry never completes the frame. -/
theorem C1_survey_overrun_counterexample :
    ((nsgif__process_frame_scan C1_gif 0).1 = .NSGIF_OK ∧
      (nsgif__process_frame_scan C1_gif 0).1 ≠ .NSGIF_INSUFFICIENT_DATA ∧
      (nsgif__process_frame_scan C1_gif 0).2.frame_count_part = 1 ∧
      (nsgif__process_frame_scan C1_gif 0).2.frame_count = 0) ∧
    ((nsgif__process_frame_scan C1_trunc_gif 0).1 =
        .NSGIF_INSUFFICIENT_DATA ∧
      (nsgif__process_frame_scan C1_trunc_gif 0).2.buffer_position = 10 ∧
      (nsgif__process_frame_scan C1_retry_gif 0).1 =
        .NSGIF_FRAME_DATA_ERROR ∧
      (nsgif__process_frame_scan C1_retry_gif 0).2.frame_count = 0 ∧
      ((nsgif__process_frame_scan C1_retry_gif 0).2.frames.getD 0
        frame_zero).display = false) := by
  decide

/-- C1 (amended): when a frame's sub-block chain strictly overruns the
buffer (the walk's overrun outcome), the survey returns NSGIF_OK (not
NSGIF_INSUFFICIENT_DATA), counting the frame in frame_count_part while
frame_count, the frame records and the position stay unchanged; when the
chain is merely truncated (the walk's insufficient outcome, including a
sub-block ending exactly at the end of the buffer), the survey returns
NSGIF_INSUFFICIENT_DATA, again with only frame_count_part updated and the
position unchanged — so the caller's cleanup stores the minimum-code-size
position into buffer_position and a re-run Scan resumes there instead of
at the frame's start, failing the image descriptor separator check rather
than completing the frame, as the counterexample exhibits. -/
theorem C1_survey_overrun_behaviour (gif : nsgif_animation)
    (frame_idx pos : Nat)
    (hlen : 3 ≤ gif.nsgif_data.length - pos)
    (htr : gif.nsgif_data.getD pos 0 ≠ 0x3B)
    (hcode : gif.nsgif_data.getD pos 0 < LZW_CODE_MAX) :
    (nsgif__image_data_walk (gif.nsgif_data.length - pos - 1)
        gif.nsgif_data (pos + 1) (gif.nsgif_data.length - pos - 1) =
      .overrun →
      nsgif__parse_image_data_scan gif frame_idx pos =
        (.NSGIF_OK, { gif with frame_count_part := frame_idx + 1 }, pos)) ∧
    (nsgif__image_data_walk (gif.nsgif_data.length - pos - 1)
        gif.nsgif_data (pos + 1) (gif.nsgif_data.length - pos - 1) =
      .insufficient →
      nsgif__parse_image_data_scan gif frame_idx pos =
        (.NSGIF_INSUFFICIENT_DATA,
          { gif with frame_count_part := frame_idx + 1 }, pos)) := by
  constructor
  · intro hov
    simp only [nsgif__parse_image_data_scan]
    rw [if_neg (by omega), if_neg (by omega), if_neg (by omega), if_neg htr,
      if_neg (Nat.not_le.mpr hcode), hov]
  · intro hins
    simp only [nsgif__parse_image_data_scan]
    rw [if_neg (by omega), if_neg (by omega), if_neg (by omega), if_neg htr,
      if_neg (Nat.not_le.mpr hcode), hins]

theorem C1_survey_overrun_behaviour_witness :
    (3 ≤ ([2, 5, 170] : List Nat).length - 0 ∧
      ([2, 5, 170] : List Nat).getD 0 0 ≠ 0x3B ∧
      ([2, 5, 170] : List Nat).getD 0 0 < LZW_CODE_MAX) ∧
    ((nsgif__image_data_walk 2 [2, 5, 170] 1 2 = .overrun →
      nsgif__parse_image_data_scan
          { anim_zero with nsgif_data := [2, 5, 170] } 0 0 =
        (.NSGIF_OK,
          { { anim_zero with nsgif_data := [2, 5, 170] } with
              frame_count_part := 1 }, 0)) ∧
    (nsgif__image_data_walk 2 [2, 5, 170] 1 2 = .insufficient →
      nsgif__parse_image_data_scan
          { anim_zero with nsgif_data := [2, 5, 170] } 0 0 =
        (.NSGIF_INSUFFICIENT_DATA,
          { { anim_zero with nsgif_data := [2, 5, 170] } with
              frame_count_part := 1 }, 0))) :=
  ⟨⟨by decide, by decide, by decide⟩,
    C1_survey_overrun_behaviour { anim_zero with nsgif_data := [2, 5, 170] }
      0 0 (by decide) (by decide) (by decide)⟩

/-- C9 counterexample: the claim says the survey never records a frame
whose index would make the total frame count exceed 4096.  Surveying frame
index 4096 of C9_gif succeeds with NSGIF_OK and records it, leaving
frame_count = 4097 > 4096: the cap in the code is frame_idx > 4096, so a
4097th frame is accepted. -/
theorem C9_frame_cap_counterexample :
    (nsgif__process_frame_scan C9_gif 4096).1 = .NSGIF_OK ∧
      (nsgif__process_frame_scan C9_gif 4096).2.frame_count = 4097 := by
  decide

/-- C9 (amended): the survey rejects a frame INDEX above 4096 with
NSGIF_FRAME_DATA_ERROR, leaving the state as nsgif__get_frame grew it (so
streams are capped at 4097 recorded frames, indices 0 .. 4096, not 4096);
the trailer fast path is excluded by hypothesis since it is checked
first. -/
theorem C9_amended_frame_cap (gif : nsgif_animation) (frame_idx : Nat)
    (hcap : 4096 < frame_idx)
    (hnt : ¬ (((nsgif__get_frame gif frame_idx).1).buffer_position <
        ((nsgif__get_frame gif frame_idx).1).nsgif_data.length ∧
      ((nsgif__get_frame gif frame_idx).1).nsgif_data.getD
        ((nsgif__get_frame gif frame_idx).1).buffer_position 0 = 0x3B)) :
    nsgif__process_frame_scan gif frame_idx =
      (.NSGIF_FRAME_DATA_ERROR, (nsgif__get_frame gif frame_idx).1) := by
  simp only [nsgif__process_frame_scan]
  rw [if_neg hnt, if_pos hcap]

theorem C9_amended_frame_cap_witness :
    (4096 < 4097 ∧
      ¬ (((nsgif__get_frame anim_zero 4097).1).buffer_position <
          ((nsgif__get_frame anim_zero 4097).1).nsgif_data.length ∧
        ((nsgif__get_frame anim_zero 4097).1).nsgif_data.getD
          ((nsgif__get_frame anim_zero 4097).1).buffer_position 0 = 0x3B)) ∧
    nsgif__process_frame_scan anim_zero 4097 =
      (.NSGIF_FRAME_DATA_ERROR, (nsgif__get_frame anim_zero 4097).1) :=
  ⟨⟨by decide, by decide⟩,
    C9_amended_frame_cap anim_zero 4097 (by decide) (by decide)⟩

/-!
## Decode of an undisplayed frame is a no-op (claim C10)
-/

/-- C10: decoding a surveyed frame whose display flag is false returns
NSGIF_OK immediately: no bitmap capability callback is invoked (the event
list is empty), the canvas, the decoded-frame marker and the frame record
are untouched; when the frame record already exists (the index is below
frame_holders) the whole animation state is returned unchanged. -/
theorem C10_no_display_noop (o : LzwOracle) (gif : nsgif_animation)
    (frame_idx : Nat)
    (hdisp : ((nsgif__get_frame gif frame_idx).2).display = false) :
    nsgif__process_frame_decode o gif frame_idx =
      (.NSGIF_OK, (nsgif__get_frame gif frame_idx).1,
        (nsgif__get_frame gif frame_idx).2, []) ∧
    (frame_idx < gif.frame_holders →
      (nsgif__get_frame gif frame_idx).1 = gif) := by
  constructor
  · simp only [nsgif__process_frame_decode]
    rw [if_pos hdisp]
  · intro h
    simp only [nsgif__get_frame]
    rw [if_pos h]

theorem C10_no_display_noop_witness :
    (((nsgif__get_frame C10_gif 0).2).display = false) ∧
    (nsgif__process_frame_decode C10_oracle C10_gif 0 =
      (.NSGIF_OK, (nsgif__get_frame C10_gif 0).1,
        (nsgif__get_frame C10_gif 0).2, []) ∧
    (0 < C10_gif.frame_holders → (nsgif__get_frame C10_gif 0).1 = C10_gif)) :=
  ⟨by decide, C10_no_display_noop C10_oracle C10_gif 0 (by decide)⟩

/-- C2: the claim requires that with no frame materialised
(decoded_frame = NSGIF_INVALID_FRAME) the canvas be filled with the
transparent colour 0x00000000 before decoding.  Decoding frame 1 of C2_gif
succeeds, yet the stale canvas pixel 5 survives: nsgif__update_bitmap
assigns gif->decoded_frame = frame_idx BEFORE testing it against
NSGIF_INVALID_FRAME, so the test is dead and no transparent fill happens
(the legacy decoder tests before assigning, which is the specified
behaviour). -/
theorem C2_precompose_fill_skipped :
    C2_gif.decoded_frame = NSGIF_INVALID_FRAME ∧
      (nsgif__process_frame_decode C2_oracle C2_gif 1).1 = .NSGIF_OK ∧
      ((nsgif__process_frame_decode C2_oracle C2_gif 1).2.1).frame_image =
        some [5] ∧
      ((nsgif__process_frame_decode C2_oracle C2_gif 1).2.1).frame_image ≠
        some [0] := by
  decide

/-!
## The decoded latch on a failed decode (claim C3)
-/

theorem nsgif__parse_extension_graphic_control_decoded (frame : nsgif_frame)
    (buf : List Nat) (pos len : Nat) :
    ((nsgif__parse_extension_graphic_control frame buf pos len).2).decoded =
      frame.decoded := by
  simp only [nsgif__parse_extension_graphic_control]
  split_ifs <;> rfl

theorem nsgif__frame_extension_switch_decoded (gif : nsgif_animation)
    (frame : nsgif_frame) (decode : Bool) (stop pos1 : Nat) :
    ((nsgif__frame_extension_switch gif frame decode stop pos1).2.2).decoded =
      frame.decoded := by
  rw [nsgif__frame_extension_switch]
  split_ifs
  · exact nsgif__parse_extension_graphic_control_decoded frame gif.nsgif_data
      pos1 (stop - pos1)
  · rfl
  · rfl

theorem nsgif__parse_frame_extensions_go_decoded (fuel : Nat) :
    ∀ (gif : nsgif_animation) (frame : nsgif_frame) (decode : Bool)
      (stop pos : Nat),
      ((nsgif__parse_frame_extensions_go fuel gif frame decode stop
        pos).2.2.1).decoded = frame.decoded := by
  induction fuel with
  | zero => intro gif frame decode stop pos; rfl
  | succ n ih =>
    intro gif frame decode stop pos
    rw [nsgif__parse_frame_extensions_go]
    split_ifs with h1 h2 h3 h4 h5
    · rfl
    · exact nsgif__frame_extension_switch_decoded gif frame decode stop (pos + 1)
    · exact nsgif__frame_extension_switch_decoded gif frame decode stop (pos + 1)
    · split
      · exact nsgif__frame_extension_switch_decoded gif frame decode stop (pos + 1)
      · rw [ih]
        exact nsgif__frame_extension_switch_decoded gif frame decode stop (pos + 1)
    · split
      · exact nsgif__frame_extension_switch_decoded gif frame decode stop (pos + 1)
      · rw [ih]
        exact nsgif__frame_extension_switch_decoded gif frame decode stop (pos + 1)
    · rfl

theorem nsgif__parse_frame_extensions_decoded (gif : nsgif_animation)
    (frame : nsgif_frame) (decode : Bool) (pos : Nat) :
    ((nsgif__parse_frame_extensions gif frame decode pos).2.2.1).decoded =
      frame.decoded := by
  rw [nsgif__parse_frame_extensions]
  split_ifs
  · exact nsgif__parse_frame_extensions_go_decoded _ gif frame decode _ pos
  · exact nsgif__parse_frame_extensions_go_decoded _ gif frame decode _ pos

theorem nsgif__parse_image_descriptor_decoded (gif : nsgif_animation)
    (frame : nsgif_frame) (decode : Bool) (pos : Nat) :
    ((nsgif__parse_image_descriptor gif frame decode pos).2.2.1).decoded =
      frame.decoded := by
  rw [nsgif__parse_image_descriptor]
  split_ifs <;> rfl

theorem nsgif__update_bitmap_decoded (o : LzwOracle) (gif : nsgif_animation)
    (frame : nsgif_frame) (frame_idx : Nat) (h : frame.decoded = true) :
    ((nsgif__update_bitmap o gif frame frame_idx).2.2.1).decoded = true := by
  simp only [nsgif__update_bitmap, h]
  split_ifs <;> simp [h]

theorem nsgif__parse_image_data_decode_decoded (o : LzwOracle)
    (gif : nsgif_animation) (frame : nsgif_frame) (frame_idx pos : Nat)
    (h : frame.decoded = true) :
    ((nsgif__parse_image_data_decode o gif frame frame_idx
      pos).2.2.1).decoded = true := by
  simp only [nsgif__parse_image_data_decode]
  split_ifs
  · exact h
  · exact h
  · exact h
  · exact h
  · exact h
  · exact h
  · exact h
  · exact h
  · exact nsgif__update_bitmap_decoded o gif frame frame_idx h

theorem C3_failed_decode_sets_latch :
    (nsgif__process_frame_decode C3_oracle C3_gif 0).1 =
        .NSGIF_FRAME_DATA_ERROR ∧
      ((nsgif__get_frame C3_gif 0).2).decoded = false ∧
      ((nsgif__process_frame_decode C3_oracle C3_gif 0).2.2.1).decoded =
        true := by
  decide

/-- C3 (amended): the decoded latch is monotone.  A FrameDecode call,
whatever its result (success or any error kind), never clears a frame's
decoded latch: if the latch was set before the call it is set after (but a
failed decode CAN set a previously unset latch, which the original claim
ruled out). -/
theorem C3_decoded_latch_monotone (o : LzwOracle) (gif : nsgif_animation)
    (frame_idx : Nat)
    (h : ((nsgif__get_frame gif frame_idx).2).decoded = true) :
    ((nsgif__process_frame_decode o gif frame_idx).2.2.1).decoded = true := by
  simp only [nsgif__process_frame_decode]
  split_ifs with h1 h2 h3 h4 h5 h6
  · exact h
  · exact h
  · exact h
  · exact nsgif__parse_image_data_decode_decoded _ _ _ _ _
      (by rw [nsgif__parse_image_descriptor_decoded,
        nsgif__parse_frame_extensions_decoded]; exact h)
  · rw [nsgif__parse_image_descriptor_decoded,
      nsgif__parse_frame_extensions_decoded]
    exact h
  · rw [nsgif__parse_image_descriptor_decoded,
      nsgif__parse_frame_extensions_decoded]
    exact h
  · rw [nsgif__parse_frame_extensions_decoded]
    exact h

theorem C3_decoded_latch_monotone_witness :
    (((nsgif__get_frame C3_w_gif 0).2).decoded = true) ∧
    ((nsgif__process_frame_decode C3_w_oracle C3_w_gif 0).2.2.1).decoded =
      true := by
  refine ⟨by decide, ?_⟩
  exact C3_decoded_latch_monotone C3_w_oracle C3_w_gif 0 (by decide)

/-!
## Fast-path and general-path agreement (claim C6)

Both decode paths are reduced to a closed form: a run of palette-mapped,
transparency-skipping writes of a prefix of the uncompressed index stream,
laid down contiguously from the frame's first canvas position.
-/

theorem blit_px_length (ctable : List Nat) (tindex : Nat) (canvas : List Nat)
    (dst c : Nat) :
    (blit_px ctable tindex canvas dst c).length = canvas.length := by
  rw [blit_px]
  split_ifs <;> simp

theorem blit_run_append (ctable : List Nat) (tindex : Nat) :
    ∀ (xs ys canvas : List Nat) (dst : Nat),
      blit_run ctable tindex canvas dst (xs ++ ys) =
        blit_run ctable tindex (blit_run ctable tindex canvas dst xs)
          (dst + xs.length) ys := by
  intro xs
  induction xs with
  | nil => intro ys canvas dst; simp [blit_run]
  | cons x xs ih =>
    intro ys canvas dst
    simp only [List.cons_append, blit_run, List.length_cons, List.append_eq]
    rw [ih]
    rw [show dst + (xs.length + 1) = dst + 1 + xs.length by omega]

theorem blit_run_oob (ctable : List Nat) (tindex : Nat) :
    ∀ (xs canvas : List Nat) (dst : Nat), canvas.length ≤ dst →
      blit_run ctable tindex canvas dst xs = canvas := by
  intro xs
  induction xs with
  | nil => intro canvas dst h; rfl
  | cons x xs ih =>
    intro canvas dst h
    rw [blit_run]
    have hpx : blit_px ctable tindex canvas dst x = canvas := by
      rw [blit_px]
      split_ifs
      · exact List.set_eq_of_length_le h
      · exact List.set_eq_of_length_le h
      · rfl
    rw [hpx]
    exact ih canvas (dst + 1) (by omega)

theorem blit_run_take_oob (ctable : List Nat) (tindex : Nat) :
    ∀ (xs canvas : List Nat) (dst k : Nat), canvas.length ≤ dst + k →
      blit_run ctable tindex canvas dst (xs.take k) =
        blit_run ctable tindex canvas dst xs := by
  intro xs
  induction xs with
  | nil => intro canvas dst k h; simp
  | cons x xs ih =>
    intro canvas dst k h
    cases k with
    | zero =>
      simp only [List.take_zero]
      exact (blit_run_oob ctable tindex (x :: xs) canvas dst (by omega)).symm
    | succ k =>
      simp only [List.take_succ_cons]
      rw [blit_run, blit_run]
      exact ih (blit_px ctable tindex canvas dst x) (dst + 1) k
        (by rw [blit_px_length]; omega)

theorem take_chunk (xs : List Nat) (n p : Nat) (h : n ≤ p) :
    xs.take n ++ (xs.drop n).take (p - (xs.take n).length) = xs.take p := by
  by_cases hl : xs.length ≤ n
  · rw [List.take_of_length_le hl, List.drop_of_length_le hl,
      List.take_of_length_le (le_trans hl h), List.take_nil,
      List.append_nil]
  · push_neg at hl
    rw [List.length_take_of_le (le_of_lt hl),
      show p = n + (p - n) by omega, List.take_add]
    rw [show n + (p - n) - n = p - n by omega]

theorem nsgif__decode_simple_go_closed (o_end : lzw_result)
    (ctable : List Nat) (tindex : Nat) (hend : o_end ≠ .LZW_OK) :
    ∀ (fuel : Nat) (rem msizes canvas : List Nat) (dst pixels : Nat),
      rem.length < fuel →
      (nsgif__decode_simple_go o_end ctable tindex fuel canvas dst rem msizes
        pixels).2 = blit_run ctable tindex canvas dst (rem.take pixels) := by
  intro fuel
  induction fuel with
  | zero => intro rem msizes canvas dst pixels h; omega
  | succ n ih =>
    intro rem msizes canvas dst pixels h
    rw [nsgif__decode_simple_go]
    by_cases hp : pixels = 0
    · rw [if_pos hp, hp, List.take_zero]
      rfl
    · rw [if_neg hp]
      by_cases hr : rem = []
      · subst hr
        simp only [lzw_decode_map, if_pos rfl, ne_eq, hend, not_false_iff,
          if_true, List.take_nil]
        rfl
      · have hn0 : 1 ≤ (match msizes with
            | [] => rem.length
            | s :: _ => max s 1) := by
          cases msizes with
          | nil => exact List.length_pos.mpr hr
          | cons s t => exact Nat.le_max_right s 1
        simp only [lzw_decode_map, if_neg hr]
        rw [if_neg (by simp)]
        rw [ih _ _ _ _ _ (by
          rw [List.length_drop]
          have := List.length_pos.mpr hr
          omega)]
        rw [← blit_run_append]
        rw [take_chunk rem _ pixels (Nat.min_le_left _ _)]

theorem nsgif__decode_simple_closed (o : LzwOracle)
    (W H height offset_y tindex : Nat) (ctable canvas : List Nat)
    (hwf : o.wf) :
    (nsgif__decode_simple o W H height offset_y tindex ctable canvas).2 =
      if H ≤ offset_y ∨ height - gif__clip offset_y height H = 0 ∨
          o.init_res ≠ .LZW_OK then canvas
      else blit_run ctable tindex canvas (offset_y * W)
        (o.stream.take (W * height)) := by
  simp only [nsgif__decode_simple]
  by_cases h1 : H ≤ offset_y
  · rw [if_pos h1, if_pos (Or.inl h1)]
  · rw [if_neg h1]
    by_cases h2 : height - gif__clip offset_y height H = 0
    · rw [if_pos h2, if_pos (Or.inr (Or.inl h2))]
    · rw [if_neg h2]
      by_cases h3 : o.init_res ≠ .LZW_OK
      · rw [if_pos h3, if_pos (Or.inr (Or.inr h3))]
      · rw [if_neg h3, if_neg (by tauto)]
        exact nsgif__decode_simple_go_closed o.end_res ctable tindex hwf _ _ _
          _ _ _ (Nat.lt_succ_self _)

theorem complex_row_fast_ok (o_end : lzw_result) (ctable : List Nat)
    (tindex : Nat) :
    ∀ (fuel x : Nat) (carry rem sizes canvas : List Nat) (dst : Nat),
      x + rem.length < fuel → x ≤ carry.length + rem.length →
      ∃ carry2 rem2 sizes2,
        nsgif__decode_complex_row o_end ctable tindex fuel canvas dst x carry
            rem sizes .LZW_OK 0 =
          .ok ⟨blit_run ctable tindex canvas dst ((carry ++ rem).take x),
            carry2, rem2, sizes2, .LZW_OK, 0⟩ ∧
        carry2 ++ rem2 = (carry ++ rem).drop x := by
  intro fuel
  induction fuel with
  | zero => intro x carry rem sizes canvas dst h _; omega
  | succ n ih =>
    intro x carry rem sizes canvas dst hfuel hlen
    rw [nsgif__decode_complex_row]
    by_cases hx : x = 0
    · subst hx
      rw [if_pos rfl]
      exact ⟨carry, rem, sizes, by rw [List.take_zero]; rfl,
        (List.drop_zero _).symm⟩
    · rw [if_neg hx]
      by_cases hc : carry = []
      · subst hc
        rw [if_pos rfl, if_neg (by simp)]
        have hr : rem ≠ [] := by
          intro h0
          subst h0
          simp at hlen
          omega
        have hrl := List.length_pos.mpr hr
        simp only [List.length_nil, Nat.zero_add] at hlen
        simp only [lzw_decode, if_neg hr, lzw_chunk]
        generalize hgen : (match sizes with
          | [] => rem.length
          | s :: _ => max s 1) = n0
        have hn0 : 1 ≤ n0 := by
          rw [← hgen]
          cases sizes with
          | nil => exact List.length_pos.mpr hr
          | cons s t => exact Nat.le_max_right s 1
        rw [if_neg (by
          rw [List.take_eq_nil_iff]
          push_neg
          exact ⟨by omega, hr⟩)]
        simp only [Nat.zero_min, Nat.zero_sub, List.drop_zero]
        obtain ⟨c2, r2, s2, hok, hsp⟩ := ih x (rem.take n0) (rem.drop n0)
          sizes.tail canvas dst
          (by rw [List.length_drop]; omega)
          (by rw [List.length_take, List.length_drop]; omega)
        rw [List.take_append_drop] at hok hsp
        simp only [List.nil_append]
        exact ⟨c2, r2, s2, hok, hsp⟩
      · rw [if_neg hc]
        have hcl := List.length_pos.mpr hc
        obtain ⟨c2, r2, s2, hok, hsp⟩ := ih (x - min x carry.length)
          (carry.drop (min x carry.length)) rem sizes
          (blit_run ctable tindex canvas dst (carry.take (min x carry.length)))
          (dst + min x carry.length)
          (by omega) (by rw [List.length_drop]; omega)
        refine ⟨c2, r2, s2, ?_, ?_⟩
        · rw [hok]
          have hsplit : (carry ++ rem).take x =
              carry.take (min x carry.length) ++
                ((carry.drop (min x carry.length) ++ rem).take
                  (x - min x carry.length)) := by
            rw [← List.drop_append_of_le_length (Nat.min_le_right x _),
              ← List.take_append_of_le_length (Nat.min_le_right x _),
              ← List.take_add]
            rw [show min x carry.length + (x - min x carry.length) = x by
              omega]
          rw [hsplit, blit_run_append,
            List.length_take_of_le (Nat.min_le_right x _)]
        · rw [hsp, ← List.drop_append_of_le_length (Nat.min_le_right x _),
            List.drop_drop]
          rw [show min x carry.length + (x - min x carry.length) = x by omega]

theorem complex_row_fast_short (o_end : lzw_result) (ctable : List Nat)
    (tindex : Nat) :
    ∀ (fuel x : Nat) (carry rem sizes canvas : List Nat) (dst : Nat),
      x + rem.length < fuel → carry.length + rem.length < x →
      nsgif__decode_complex_row o_end ctable tindex fuel canvas dst x carry
          rem sizes .LZW_OK 0 =
        .error (.NSGIF_OK, blit_run ctable tindex canvas dst (carry ++ rem)) := by
  intro fuel
  induction fuel with
  | zero => intro x carry rem sizes canvas dst h _; omega
  | succ n ih =>
    intro x carry rem sizes canvas dst hfuel hlen
    rw [nsgif__decode_complex_row]
    rw [if_neg (by omega)]
    by_cases hc : carry = []
    · subst hc
      rw [if_pos rfl, if_neg (by simp)]
      by_cases hr : rem = []
      · subst hr
        simp [lzw_decode, blit_run]
      · have hrl := List.length_pos.mpr hr
        simp only [List.length_nil, Nat.zero_add] at hlen
        simp only [lzw_decode, if_neg hr, lzw_chunk]
        generalize hgen : (match sizes with
          | [] => rem.length
          | s :: _ => max s 1) = n0
        have hn0 : 1 ≤ n0 := by
          rw [← hgen]
          cases sizes with
          | nil => exact List.length_pos.mpr hr
          | cons s t => exact Nat.le_max_right s 1
        rw [if_neg (by
          rw [List.take_eq_nil_iff]
          push_neg
          exact ⟨by omega, hr⟩)]
        simp only [Nat.zero_min, Nat.zero_sub, List.drop_zero]
        have := ih x (rem.take n0) (rem.drop n0) sizes.tail canvas dst
          (by rw [List.length_drop]; omega)
          (by rw [List.length_take, List.length_drop]; omega)
        rw [List.take_append_drop] at this
        simp only [List.nil_append]
        exact this
    · rw [if_neg hc]
      have hcl := List.length_pos.mpr hc
      have hmin : min x carry.length = carry.length := by omega
      have := ih (x - min x carry.length) (carry.drop (min x carry.length))
        rem sizes
        (blit_run ctable tindex canvas dst (carry.take (min x carry.length)))
        (dst + min x carry.length)
        (by omega) (by rw [List.length_drop]; omega)
      rw [this, hmin, List.take_length, List.drop_length, List.nil_append,
        blit_run_append]

theorem nsgif__decode_complex_rows_fast (o_end : lzw_result)
    (ctable : List Nat) (tindex W offset_y height2 : Nat) :
    ∀ (fuel y step : Nat) (canvas carry rem sizes : List Nat),
      y < height2 → height2 - y ≤ fuel →
      nsgif__decode_complex_rows o_end ctable tindex W 0 offset_y W height2 0
          false fuel y step canvas carry rem sizes .LZW_OK 0 =
        (.NSGIF_OK, blit_run ctable tindex canvas ((y + offset_y) * W)
          ((carry ++ rem).take ((height2 - y) * W))) := by
  intro fuel
  induction fuel with
  | zero => intro y step canvas carry rem sizes hy hf; omega
  | succ n ih =>
    intro y step canvas carry rem sizes hy hf
    rw [nsgif__decode_complex_rows]
    simp only [Nat.zero_add]
    by_cases hcmp : W ≤ carry.length + rem.length
    · obtain ⟨c2, r2, s2, hok, hsp⟩ := complex_row_fast_ok o_end ctable tindex
        (W + carry.length + rem.length + 1) W carry rem sizes canvas
        ((y + offset_y) * W) (by omega) hcmp
      split
      · next e heq =>
          rw [hok] at heq
          cases heq
      · next st heq =>
          rw [hok, Except.ok.injEq] at heq
          subst heq
          rw [nsgif__next_row]
          rw [if_pos rfl]
          by_cases hlast : y + 1 = height2
          · rw [if_pos hlast]
            dsimp only
            have h1 : height2 - y = 1 := by omega
            rw [h1, Nat.one_mul]
          · rw [if_neg hlast]
            dsimp only
            simp only [Nat.zero_min, Nat.zero_sub, List.drop_zero]
            rw [ih (y + 1) step _ c2 r2 s2 (by omega) (by omega)]
            rw [hsp]
            have hlen : ((carry ++ rem).take W).length = W := by
              rw [List.length_take_of_le]
              rw [List.length_append]
              omega
            have hmul : (height2 - y) * W = W + (height2 - (y + 1)) * W := by
              have h2 : height2 - y = height2 - (y + 1) + 1 := by omega
              rw [h2]
              ring
            rw [hmul, List.take_add, blit_run_append, hlen]
            rw [show (y + offset_y) * W + W = (y + 1 + offset_y) * W by ring]
    · push_neg at hcmp
      have hshort := complex_row_fast_short o_end ctable tindex
        (W + carry.length + rem.length + 1) W carry rem sizes canvas
        ((y + offset_y) * W) (by omega) hcmp
      split
      · next e heq =>
          rw [hshort] at heq
          rw [Except.error.injEq] at heq
          subst heq
          rw [List.take_of_length_le (by
            rw [List.length_append]
            have hy1 : 1 ≤ height2 - y := by omega
            calc carry.length + rem.length ≤ W := le_of_lt hcmp
              _ ≤ (height2 - y) * W := Nat.le_mul_of_pos_left W hy1)]
      · next st heq =>
          rw [hshort] at heq
          cases heq

theorem nsgif__decode_complex_fast (o : LzwOracle)
    (W H height offset_y tindex : Nat) (ctable canvas : List Nat) :
    (nsgif__decode_complex o W H W height 0 offset_y false tindex ctable
      canvas).2 =
      if W = 0 ∨ H ≤ offset_y ∨ height - gif__clip offset_y height H = 0 ∨
          o.init_res ≠ .LZW_OK then canvas
      else blit_run ctable tindex canvas (offset_y * W)
        (o.stream.take ((height - gif__clip offset_y height H) * W)) := by
  have hclip : gif__clip 0 W W = 0 := by
    rw [gif__clip, if_pos (by omega)]
  simp only [nsgif__decode_complex, hclip, Nat.sub_zero]
  by_cases h1 : W ≤ 0 ∨ H ≤ offset_y
  · rw [if_pos h1, if_pos (by
      rcases h1 with h | h
      · exact Or.inl (by omega)
      · exact Or.inr (Or.inl h))]
  · rw [if_neg h1]
    by_cases h2 : W = 0 ∨ height - gif__clip offset_y height H = 0
    · rw [if_pos h2, if_pos (by
        rcases h2 with h | h
        · exact Or.inl h
        · exact Or.inr (Or.inr (Or.inl h)))]
    · rw [if_neg h2]
      by_cases h3 : o.init_res ≠ .LZW_OK
      · rw [if_pos h3, if_pos (Or.inr (Or.inr (Or.inr h3)))]
      · rw [if_neg h3, if_neg (by
          push_neg at h1 h2
          push_neg
          exact ⟨h2.1, h1.2, h2.2, not_not.mp h3⟩)]
        rw [nsgif__decode_complex_rows_fast o.end_res ctable tindex W offset_y
          (height - gif__clip offset_y height H)
          (2 * (height - gif__clip offset_y height H) + 4) 0 24 canvas []
          o.stream o.sizes (by push_neg at h2; omega) (by omega)]
        simp only [Nat.zero_add, Nat.sub_zero, List.nil_append]

/-- C6: the decoder selects the fast (simple) path exactly when the frame
is not interlaced (flag 0x40 clear), the frame width equals the canvas
width and the frame's x offset is 0; and under that condition the fast path
and the general (complex) path leave byte-for-byte identical canvases
(both write the palette-mapped, transparency-skipped prefix of the
uncompressed stream contiguously from the frame's first row; the simple
path's over-budget pixels from the unclipped height all fall past the end
of the canvas, where writes drop). -/
theorem C6_fast_path_equiv (o : LzwOracle) (gif : nsgif_animation)
    (frame : nsgif_frame) (canvas : List Nat) (hwf : o.wf)
    (hcanvas : canvas.length = gif.width * gif.height) :
    (nsgif__decode o gif frame canvas =
      if frame.flags &&& 0x40 = 0 ∧ frame.redraw_w = gif.width ∧
          frame.redraw_x = 0 then
        nsgif__decode_simple o gif.width gif.height frame.redraw_h
          frame.redraw_y frame.transparency_index gif.colour_table canvas
      else
        nsgif__decode_complex o gif.width gif.height frame.redraw_w
          frame.redraw_h frame.redraw_x frame.redraw_y
          (frame.flags &&& 0x40 ≠ 0) frame.transparency_index
          gif.colour_table canvas) ∧
    ((frame.flags &&& 0x40 = 0 ∧ frame.redraw_w = gif.width ∧
        frame.redraw_x = 0) →
      (nsgif__decode_simple o gif.width gif.height frame.redraw_h
        frame.redraw_y frame.transparency_index gif.colour_table canvas).2 =
      (nsgif__decode_complex o gif.width gif.height frame.redraw_w
        frame.redraw_h frame.redraw_x frame.redraw_y false
        frame.transparency_index gif.colour_table canvas).2) := by
  constructor
  · rfl
  · rintro ⟨h40, hw, hx⟩
    rw [hx, hw]
    rw [nsgif__decode_simple_closed o gif.width gif.height frame.redraw_h
      frame.redraw_y frame.transparency_index gif.colour_table canvas hwf]
    rw [nsgif__decode_complex_fast o gif.width gif.height frame.redraw_h
      frame.redraw_y frame.transparency_index gif.colour_table canvas]
    by_cases hA : gif.height ≤ frame.redraw_y ∨
        frame.redraw_h - gif__clip frame.redraw_y frame.redraw_h gif.height =
          0 ∨ o.init_res ≠ .LZW_OK
    · rw [if_pos hA, if_pos (Or.inr hA)]
    · rw [if_neg hA]
      by_cases hW : gif.width = 0
      · rw [if_pos (Or.inl hW), hW]
        simp [blit_run]
      · rw [if_neg (by
          push_neg at hA
          push_neg
          exact ⟨hW, hA.1, hA.2.1, hA.2.2⟩)]
        push_neg at hA
        rw [gif__clip]
        by_cases hcl : frame.redraw_y + frame.redraw_h ≤ gif.height
        · rw [if_pos hcl, Nat.sub_zero,
            Nat.mul_comm frame.redraw_h gif.width]
        · rw [if_neg hcl]
          have hoy : frame.redraw_y < gif.height := hA.1
          have ht1 : frame.redraw_h -
              (frame.redraw_y + frame.redraw_h - gif.height) =
              gif.height - frame.redraw_y := by omega
          rw [ht1]
          have hsum : frame.redraw_y * gif.width +
              (gif.height - frame.redraw_y) * gif.width =
              gif.width * gif.height := by
            rw [← Nat.add_mul,
              show frame.redraw_y + (gif.height - frame.redraw_y) =
                gif.height by omega, Nat.mul_comm]
          rw [← blit_run_take_oob gif.colour_table frame.transparency_index
            (o.stream.take (gif.width * frame.redraw_h)) canvas
            (frame.redraw_y * gif.width)
            ((gif.height - frame.redraw_y) * gif.width)
            (by rw [hcanvas, hsum])]
          rw [List.take_take, Nat.min_eq_left (by
            rw [Nat.mul_comm gif.width frame.redraw_h]
            exact Nat.mul_le_mul_right gif.width (by
              have := hA.2.1
              rw [gif__clip, if_neg hcl] at this
              omega))]

theorem C6_fast_path_equiv_witness :
    (C6_oracle.wf ∧ ([9, 9, 9, 9] : List Nat).length =
        C6_gif.width * C6_gif.height) ∧
    ((nsgif__decode C6_oracle C6_gif C6_frame [9, 9, 9, 9] =
      if C6_frame.flags &&& 0x40 = 0 ∧ C6_frame.redraw_w = C6_gif.width ∧
          C6_frame.redraw_x = 0 then
        nsgif__decode_simple C6_oracle C6_gif.width C6_gif.height
          C6_frame.redraw_h C6_frame.redraw_y C6_frame.transparency_index
          C6_gif.colour_table [9, 9, 9, 9]
      else
        nsgif__decode_complex C6_oracle C6_gif.width C6_gif.height
          C6_frame.redraw_w C6_frame.redraw_h C6_frame.redraw_x
          C6_frame.redraw_y (C6_frame.flags &&& 0x40 ≠ 0)
          C6_frame.transparency_index C6_gif.colour_table [9, 9, 9, 9]) ∧
    ((C6_frame.flags &&& 0x40 = 0 ∧ C6_frame.redraw_w = C6_gif.width ∧
        C6_frame.redraw_x = 0) →
      (nsgif__decode_simple C6_oracle C6_gif.width C6_gif.height
        C6_frame.redraw_h C6_frame.redraw_y C6_frame.transparency_index
        C6_gif.colour_table [9, 9, 9, 9]).2 =
      (nsgif__decode_complex C6_oracle C6_gif.width C6_gif.height
        C6_frame.redraw_w C6_frame.redraw_h C6_frame.redraw_x
        C6_frame.redraw_y false C6_frame.transparency_index
        C6_gif.colour_table [9, 9, 9, 9]).2)) :=
  ⟨⟨by decide, by decide⟩,
    C6_fast_path_equiv C6_oracle C6_gif C6_frame [9, 9, 9, 9] (by decide)
      (by decide)⟩

end LibNsGif

